import Mathlib

/-!
Verification of the taskflow core (GTD task organizer): local persistence,
entity services, synchronization engine, and title date-parser.

The definitions below are a shallow embedding of the TypeScript sources:
`src/types/gtd.ts` (data model), `src/services/task.service.ts`,
`src/services/tag.service.ts`, `src/services/project.service.ts`,
`src/services/storage.service.ts`, `src/services/webdav.service.ts`,
`src/utils/date-parser.ts`.

Modelling conventions:
- timestamps are `Nat` milliseconds; every `Date.now()` inside one service
  call is modelled as a single `now : Nat` parameter;
- `generateId()` is modelled as an explicitly passed `id : String`;
- JavaScript `Partial<T>` objects distinguish an absent key from a key that
  is present with value `undefined`; an optional JS field in a partial is
  therefore `Option (Option α)` (outer layer: key present?, inner layer:
  value or undefined), and a required JS field is `Option α`;
- JS truthiness tests on numbers (`if (updates.dueDate)`,
  `if (!task.completedAt)`) treat `0` as false; this is modelled exactly;
- async storage writes are modelled as effects on an explicit state value;
  backing-medium reads are modelled as reliable, while backing writes
  (`AsyncStorage.setItem`) and the WebDAV transport (network or remote
  JSON parse) have injectable failures: each write consumes the next
  entry of a failure schedule carried in the storage state.
-/

namespace Taskflow

/-- `Priority` from gtd.ts: 'low' | 'medium' | 'high'. -/
inductive Priority where
  | low
  | medium
  | high
deriving DecidableEq, Repr

/-- Task status values that actually occur at runtime. The declared TS type
is only 'waiting' | 'someday', but the services also store the literals
'inbox' (creation default) and 'next' (promotion default), so the runtime
value set is these four. -/
inductive TaskStatus where
  | inbox
  | next
  | waiting
  | someday
deriving DecidableEq, Repr

/-- `Tag` interface from gtd.ts. -/
structure Tag where
  id : String
  name : String
  color : Option String
  createdAt : Nat
deriving DecidableEq, Repr

/-- `Project` interface from gtd.ts. -/
structure Project where
  id : String
  name : String
  description : Option String
  goal : Option String
  color : Option String
  archived : Bool
  createdAt : Nat
  updatedAt : Nat
deriving DecidableEq, Repr

/-- `Task` interface from gtd.ts. -/
structure Task where
  id : String
  title : String
  description : Option String
  status : Option TaskStatus
  priority : Option Priority
  dueDate : Option Nat
  projectId : Option String
  tagIds : List String
  completed : Bool
  completedAt : Option Nat
  createdAt : Nat
  updatedAt : Nat
deriving DecidableEq, Repr, Inhabited

/-- `GTDData` interface from gtd.ts: the root persisted Document. -/
structure GTDData where
  tasks : List Task
  projects : List Project
  tags : List Tag
  version : String
  lastSync : Option Nat
  syncHash : Option String
deriving DecidableEq, Repr

/-- STORAGE_VERSION constant from storage.service.ts. -/
def STORAGE_VERSION : String := "1.0.0"

/-- `Partial<Task>` as passed to createTask/updateTask. Fields that are
optional on `Task` use `Option (Option _)`: `none` means the key is absent,
`some none` means the key is present with value `undefined` (which JS
object spread does copy, overwriting the target field with undefined). -/
structure TaskPartial where
  title : Option String := none
  description : Option (Option String) := none
  status : Option (Option TaskStatus) := none
  priority : Option (Option Priority) := none
  dueDate : Option (Option Nat) := none
  projectId : Option (Option String) := none
  tagIds : Option (List String) := none
  completed : Option Bool := none
  completedAt : Option (Option Nat) := none
  createdAt : Option Nat := none
deriving DecidableEq, Repr

/-- Reading a possibly-absent key of a partial, as JS property access does:
an absent key and a key holding `undefined` both read as `undefined`. -/
def jsRead (x : Option (Option α)) : Option α :=
  x.join

/-- JS truthiness of a number that may be `undefined`: `undefined` and `0`
are falsy. -/
def truthyNum (x : Option Nat) : Bool :=
  match x with
  | none => false
  | some n => n != 0

/-- `createTask` from task.service.ts. The generated id and `Date.now()`
are explicit parameters. Fields `completed`/`completedAt` of the input are
ignored by the source, which builds the new task literal field by field.
Returns the updated Document (after `saveData`, which stamps `version`)
and the new task. -/
def createTask (data : GTDData) (taskData : TaskPartial) (id : String)
    (now : Nat) : GTDData × Task :=
  let newTask : Task :=
    { id := id
      title := taskData.title.getD ""
      description := jsRead taskData.description
      status := some ((jsRead taskData.status).getD TaskStatus.inbox)
      priority := jsRead taskData.priority
      dueDate := jsRead taskData.dueDate
      projectId := jsRead taskData.projectId
      tagIds := taskData.tagIds.getD []
      completed := false
      completedAt := none
      createdAt := now
      updatedAt := now }
  ({ data with tasks := data.tasks ++ [newTask], version := STORAGE_VERSION },
   newTask)

/-- The object-spread merge `{...currentTask, ...updates, id, updatedAt}`
performed by `updateTask`, including the override of `id` and
`updatedAt`. A key that is present in `updates` overrides the current
field even when its value is `undefined`. -/
def mergeTask (cur : Task) (updates : TaskPartial) (taskId : String)
    (now : Nat) : Task :=
  { id := taskId
    title := updates.title.getD cur.title
    description := updates.description.getD cur.description
    status := updates.status.getD cur.status
    priority := updates.priority.getD cur.priority
    dueDate := updates.dueDate.getD cur.dueDate
    projectId := updates.projectId.getD cur.projectId
    tagIds := updates.tagIds.getD cur.tagIds
    completed := updates.completed.getD cur.completed
    completedAt := updates.completedAt.getD cur.completedAt
    createdAt := updates.createdAt.getD cur.createdAt
    updatedAt := now }

/-- The status-promotion conditional of `updateTask`:
`if (updates.dueDate || (updates.status && updates.status !== 'inbox'))`.
Note the JS truthiness: a dueDate of `0` does not fire the rule. -/
def promotionFires (updates : TaskPartial) : Bool :=
  truthyNum (jsRead updates.dueDate) ||
    (match jsRead updates.status with
     | some s => s != TaskStatus.inbox
     | none => false)

/-- `updateTask` from task.service.ts. Throws ('Task not found', modelled
as `Except.error`) when no task has the id; otherwise merges, applies the
inbox promotion rule, writes the task back at its index and saves. -/
def updateTask (data : GTDData) (taskId : String) (updates : TaskPartial)
    (now : Nat) : Except String (GTDData × Task) :=
  match data.tasks.findIdx? (fun t => t.id == taskId) with
  | none => .error "Task not found"
  | some taskIndex =>
    let cur := data.tasks[taskIndex]!
    let merged := mergeTask cur updates taskId now
    let updatedTask :=
      if cur.status = some TaskStatus.inbox ∧ promotionFires updates then
        { merged with
            status := some ((jsRead updates.status).getD TaskStatus.next) }
      else merged
    let data' : GTDData :=
      { data with tasks := data.tasks.set taskIndex updatedTask,
                  version := STORAGE_VERSION }
    .ok (data', updatedTask)

/-- `completeTask`: `updateTask(id, {completed: true, completedAt: now})`. -/
def completeTask (data : GTDData) (taskId : String) (now : Nat) :
    Except String (GTDData × Task) :=
  updateTask data taskId
    { completed := some true, completedAt := some (some now) } now

/-- `uncompleteTask`: `updateTask(id, {completed: false, completedAt:
undefined})`; the explicitly-undefined key clears the field via spread. -/
def uncompleteTask (data : GTDData) (taskId : String) (now : Nat) :
    Except String (GTDData × Task) :=
  updateTask data taskId
    { completed := some false, completedAt := some none } now

/-- The filter of `archiveOldCompletedTasks` keeps a task when it is not
completed, or its `completedAt` is falsy (absent or 0), or `completedAt >
cutoff`. The cutoff is `Date.now() - daysOld*86400000`, computed in `Int`
since it can be negative. -/
def archiveKeeps (cutoff : Int) (t : Task) : Bool :=
  if !t.completed then true
  else if !truthyNum t.completedAt then true
  else (t.completedAt.getD 0 : Int) > cutoff

/-- `archiveOldCompletedTasks(daysOld)` from task.service.ts: filters the
task list, saves, and returns the number of removed tasks. -/
def archiveOldCompletedTasks (data : GTDData) (daysOld : Nat) (now : Nat) :
    GTDData × Nat :=
  let cutoffDate : Int := (now : Int) - daysOld * 86400000
  let kept := data.tasks.filter (archiveKeeps cutoffDate)
  ({ data with tasks := kept, version := STORAGE_VERSION },
   data.tasks.length - kept.length)

/-- ASCII lower-casing of a string, modelling `String.prototype.toLowerCase`
on the ASCII names this code base compares. -/
def jsLower (s : String) : String :=
  String.mk (s.data.map Char.toLower)

/-- `String.prototype.trim`, modelled on the character list (the built-in
`String.trim` is iterator-based and opaque to kernel evaluation). -/
def jsTrim (s : String) : String :=
  String.mk
    (((s.data.dropWhile Char.isWhitespace).reverse.dropWhile
        Char.isWhitespace).reverse)

/-- `Partial<Tag>` for createTag/updateTag. `name` is required on `Tag`, so
a single `Option` layer; `color` is optional on `Tag`. -/
structure TagPartial where
  name : Option String := none
  color : Option (Option String) := none
  createdAt : Option Nat := none
deriving DecidableEq, Repr

/-- `createTag` from tag.service.ts. The duplicate check compares
`t.name.toLowerCase() === tagData.name?.toLowerCase()`; when `tagData.name`
is absent the right-hand side is `undefined` and the check never matches.
On a case-insensitive match the existing tag is returned and nothing is
saved; otherwise the new tag is appended and the Document saved. -/
def createTag (data : GTDData) (tagData : TagPartial) (id : String)
    (now : Nat) : GTDData × Tag :=
  let existing :=
    match tagData.name with
    | none => none
    | some nm => data.tags.find? (fun t => jsLower t.name == jsLower nm)
  match existing with
  | some t => (data, t)
  | none =>
    let newTag : Tag :=
      { id := id
        name := tagData.name.getD ""
        color := jsRead tagData.color
        createdAt := now }
    ({ data with tags := data.tags ++ [newTag], version := STORAGE_VERSION },
     newTag)

/-- `updateTag` from tag.service.ts: finds the tag by id, merges the
partial over it by object spread (no name-uniqueness check of any kind),
writes it back and saves. -/
def updateTag (data : GTDData) (tagId : String) (updates : TagPartial) :
    Except String (GTDData × Tag) :=
  match data.tags.findIdx? (fun t => t.id == tagId) with
  | none => .error "Tag not found"
  | some tagIndex =>
    let cur := data.tags[tagIndex]?.getD
      { id := "", name := "", color := none, createdAt := 0 }
    let updatedTag : Tag :=
      { id := tagId
        name := updates.name.getD cur.name
        color := updates.color.getD cur.color
        createdAt := updates.createdAt.getD cur.createdAt }
    let data' : GTDData :=
      { data with tags := data.tags.set tagIndex updatedTag,
                  version := STORAGE_VERSION }
    .ok (data', updatedTag)

/-- `getOrCreateTag(tagName, color?)` from tag.service.ts: its own
case-insensitive find, then delegation to `createTag` (which repeats the
find) when nothing matched. -/
def getOrCreateTag (data : GTDData) (tagName : String)
    (color : Option String) (id : String) (now : Nat) : GTDData × Tag :=
  match data.tags.find? (fun t => jsLower t.name == jsLower tagName) with
  | some t => (data, t)
  | none =>
    createTag data { name := some tagName, color := some color } id now

/-- `deleteProject` from project.service.ts: removes every project whose id
equals the argument, nulls `projectId` (stamping `updatedAt`) on every task
that referenced it, leaves other tasks and all tags alone, and saves. -/
def deleteProject (data : GTDData) (projectId : String) (now : Nat) :
    GTDData :=
  { data with
      projects := data.projects.filter (fun p => p.id != projectId),
      tasks := data.tasks.map (fun t =>
        if t.projectId == some projectId then
          { t with projectId := none, updatedAt := now }
        else t),
      version := STORAGE_VERSION }

/-! Storage-service hash (`calculateHash`). The source sorts each collection
by id with `localeCompare`, serializes the three collections with
`JSON.stringify`, and folds the Java-style 31-based rolling hash over the
characters, truncating to a signed 32-bit integer at each step, and prints
the result in base 36. The serialization below reproduces
`JSON.stringify` on these records: keys in a fixed (interface) order,
`undefined`-valued keys omitted, minimal escaping. `localeCompare` is
modelled as code-point comparison, which agrees with it on the base-36
id alphabet the id generator produces. -/

/-- JSON escaping of one character as `JSON.stringify` performs it. -/
def jsonEscapeChar (c : Char) : String :=
  if c = '"' then "\\\""
  else if c = '\\' then "\\\\"
  else if c = Char.ofNat 8 then "\\b"
  else if c = Char.ofNat 9 then "\\t"
  else if c = Char.ofNat 10 then "\\n"
  else if c = Char.ofNat 12 then "\\f"
  else if c = Char.ofNat 13 then "\\r"
  else if c.toNat < 32 then
    let hexDigit (n : Nat) : Char :=
      if n < 10 then Char.ofNat (48 + n) else Char.ofNat (87 + n)
    String.mk ['\\', 'u', '0', '0', hexDigit (c.toNat / 16),
      hexDigit (c.toNat % 16)]
  else String.singleton c

/-- A JSON string literal. -/
def jstr (s : String) : String :=
  "\"" ++ String.join (s.data.map jsonEscapeChar) ++ "\""

/-- A JSON object from already-rendered `"key":value` members. -/
def jobj (fields : List String) : String :=
  "\x7b" ++ String.intercalate "," fields ++ "\x7d"

/-- A JSON array from already-rendered items. -/
def jarr (items : List String) : String :=
  "[" ++ String.intercalate "," items ++ "]"

/-- One `"key":value` member. -/
def jfield (key : String) (value : String) : String :=
  jstr key ++ ":" ++ value

/-- An optional member: omitted when the JS value is `undefined`, as
`JSON.stringify` omits such keys. -/
def jfieldOpt (key : String) (value : Option String) : List String :=
  match value with
  | none => []
  | some v => [jfield key v]

/-- The runtime string literal of a status. -/
def statusStr : TaskStatus → String
  | .inbox => "inbox"
  | .next => "next"
  | .waiting => "waiting"
  | .someday => "someday"

/-- The runtime string literal of a priority. -/
def priorityStr : Priority → String
  | .low => "low"
  | .medium => "medium"
  | .high => "high"

/-- `JSON.stringify` of one Task, keys in interface declaration order. -/
def jsonOfTask (t : Task) : String :=
  jobj (List.flatten
    [[jfield "id" (jstr t.id)],
     [jfield "title" (jstr t.title)],
     jfieldOpt "description" (t.description.map jstr),
     jfieldOpt "status" (t.status.map (fun s => jstr (statusStr s))),
     jfieldOpt "priority" (t.priority.map (fun p => jstr (priorityStr p))),
     jfieldOpt "dueDate" (t.dueDate.map toString),
     jfieldOpt "projectId" (t.projectId.map jstr),
     [jfield "tagIds" (jarr (t.tagIds.map jstr))],
     [jfield "completed" (if t.completed then "true" else "false")],
     jfieldOpt "completedAt" (t.completedAt.map toString),
     [jfield "createdAt" (toString t.createdAt)],
     [jfield "updatedAt" (toString t.updatedAt)]])

/-- `JSON.stringify` of one Project, keys in interface declaration order. -/
def jsonOfProject (p : Project) : String :=
  jobj (List.flatten
    [[jfield "id" (jstr p.id)],
     [jfield "name" (jstr p.name)],
     jfieldOpt "description" (p.description.map jstr),
     jfieldOpt "goal" (p.goal.map jstr),
     jfieldOpt "color" (p.color.map jstr),
     [jfield "archived" (if p.archived then "true" else "false")],
     [jfield "createdAt" (toString p.createdAt)],
     [jfield "updatedAt" (toString p.updatedAt)]])

/-- `JSON.stringify` of one Tag, keys in interface declaration order. -/
def jsonOfTag (t : Tag) : String :=
  jobj (List.flatten
    [[jfield "id" (jstr t.id)],
     [jfield "name" (jstr t.name)],
     jfieldOpt "color" (t.color.map jstr),
     [jfield "createdAt" (toString t.createdAt)]])

/-- Lexicographic code-point comparison of character lists; models the
comparator `(a, b) => a.id.localeCompare(b.id) <= 0` on the lowercase
base-36 ids this code base generates. -/
def lexLe : List Char → List Char → Bool
  | [], _ => true
  | _ :: _, [] => false
  | a :: as, b :: bs =>
    if a.toNat = b.toNat then lexLe as bs else decide (a.toNat < b.toNat)

/-- Code-point string comparison (see `lexLe`). -/
def strLe (a b : String) : Bool :=
  lexLe a.data b.data

/-- The `[...xs].sort((a, b) => a.id.localeCompare(b.id))` copies inside
`calculateHash`, one per collection. -/
def sortByIdKey (key : α → String) (l : List α) : List α :=
  l.mergeSort (fun a b => strLe (key a) (key b))

/-- The string `JSON.stringify(sortedData)` that `calculateHash` hashes:
only the three collections, each sorted by id; `version`, `lastSync`, and
`syncHash` do not participate. -/
def sortedDataJson (data : GTDData) : String :=
  jobj
    [jfield "tasks" (jarr ((sortByIdKey Task.id data.tasks).map jsonOfTask)),
     jfield "projects"
       (jarr ((sortByIdKey Project.id data.projects).map jsonOfProject)),
     jfield "tags" (jarr ((sortByIdKey Tag.id data.tags).map jsonOfTag))]

/-- Truncation of an integer to a signed 32-bit value, as JS `| 0`-style
coercions (`<<`, `&`) perform. -/
def toInt32 (z : Int) : Int :=
  (z + 2147483648) % 4294967296 - 2147483648

/-- One round of the hash loop: `hash = ((hash << 5) - hash) + char;
hash = hash & hash`. The shift coerces to int32 first; the `& hash`
truncates the exact intermediate sum to int32. -/
def jsHashStep (h : Int) (c : Char) : Int :=
  toInt32 (toInt32 (h * 32) - h + c.toNat)

/-- The full hash loop over a string's UTF-16 units (code points here; the
strings hashed are ASCII). -/
def jsHashString (s : String) : Int :=
  s.data.foldl jsHashStep 0

/-- A base-36 digit, lowercase, as `Number.prototype.toString(36)` uses. -/
def b36digit (n : Nat) : Char :=
  if n < 10 then Char.ofNat (48 + n) else Char.ofNat (87 + n)

/-- Base-36 digits of a natural number (fuel-based; `n + 1` steps always
suffice since the number shrinks by a factor 36 each step). -/
def natToBase36Aux : Nat → Nat → List Char → List Char
  | 0, _, acc => acc
  | fuel + 1, n, acc =>
    if n < 36 then b36digit n :: acc
    else natToBase36Aux fuel (n / 36) (b36digit (n % 36) :: acc)

/-- `n.toString(36)` for a natural number. -/
def natToBase36 (n : Nat) : String :=
  String.mk (natToBase36Aux (n + 1) n [])

/-- `z.toString(36)` for a (possibly negative) 32-bit value: JS prints the
sign then the base-36 digits of the magnitude. -/
def jsToString36 (z : Int) : String :=
  if z < 0 then "-" ++ natToBase36 z.natAbs else natToBase36 z.toNat

/-- `calculateHash` from storage.service.ts: base-36 rendering of the
32-bit rolling hash of the canonical JSON of the sorted collections. -/
def calculateHash (data : GTDData) : String :=
  jsToString36 (jsHashString (sortedDataJson data))

/-! Storage service state and the WebDAV synchronization engine. The
storage state carries the in-memory cache and the parsed content of the
AsyncStorage key (JSON round-tripping is modelled as the identity on
Documents). The WebDAV transport is one remote slot holding the parsed
remote file; its operations can be made to fail through injected fault
flags (`getFails` also covers a remote file whose content fails to
parse). -/

/-- `getEmptyData()` from storage.service.ts. -/
def getEmptyData : GTDData :=
  { tasks := [], projects := [], tags := [], version := STORAGE_VERSION,
    lastSync := none, syncHash := none }

/-- The storage service's state: in-memory cache plus the backing key. -/
structure StorageState where
  cache : Option GTDData
  stored : Option GTDData
  writeFaults : List Bool := []
deriving DecidableEq, Repr

/-- Outcome of a JS async call: a value, or a thrown error message. -/
inductive JSOutcome (α : Type) where
  | ok (value : α)
  | thrown (message : String)
deriving DecidableEq, Repr

/-- `saveData`: stamps `version` on the object, serializes, writes the
backing key, and only then repoints the cache at the saved object. The
write can throw (`AsyncStorage.setItem` failing); the next scheduled
fault is consumed (failure schedule tracked in `writeFaults`, empty =
reliable), and on failure `saveData` rethrows its fixed StorageError
message with the cache pointer unchanged. -/
def saveDataS (st : StorageState) (data : GTDData) :
    JSOutcome Unit × StorageState :=
  let d := { data with version := STORAGE_VERSION }
  match st.writeFaults with
  | true :: rest =>
    (.thrown "Failed to save data to storage", { st with writeFaults := rest })
  | false :: rest =>
    (.ok (), { cache := some d, stored := some d, writeFaults := rest })
  | [] => (.ok (), { cache := some d, stored := some d, writeFaults := [] })

/-- `loadData`: reads the backing key (the read itself is modelled as
reliable); when the key is absent, saves a fresh empty Document — a
failing save is caught and rethrown as the load-failure message with the
cache still empty. -/
def loadDataS (st : StorageState) : JSOutcome GTDData × StorageState :=
  match st.stored with
  | some d => (.ok d, { st with cache := some d })
  | none =>
    match saveDataS st getEmptyData with
    | (.ok _, st₁) => (.ok getEmptyData, st₁)
    | (.thrown _, st₁) => (.thrown "Failed to load data from storage", st₁)

/-- `getData`: cache when present, else `loadData`. -/
def getDataS (st : StorageState) : JSOutcome GTDData × StorageState :=
  match st.cache with
  | some d => (.ok d, st)
  | none => loadDataS st

/-- The Document as `updateSyncMetadata` stamps it: `lastSync = now`,
`syncHash` the current hash, and the `version` that `saveData` writes. -/
def stampDoc (d : GTDData) (now : Nat) : GTDData :=
  { d with
      lastSync := some now,
      syncHash := some (calculateHash d),
      version := STORAGE_VERSION }

/-- `updateSyncMetadata`: hash the current Document, stamp `lastSync` and
`syncHash` on it, save. In the source the stamping mutates the *cached
object in place* before the fallible write (and `saveData` stamps
`version` on it before writing), so the stamped Document is visible in
the cache even when the write throws; the cache is therefore updated
before `saveDataS` runs. -/
def updateSyncMetadataS (st : StorageState) (now : Nat) :
    JSOutcome Unit × StorageState :=
  match getDataS st with
  | (.thrown m, st₁) => (.thrown m, st₁)
  | (.ok data, st₁) =>
    saveDataS { st₁ with cache := some (stampDoc data now) }
      (stampDoc data now)

/-- Injectable transport faults. `existsFails`: the existence probe
throws; `getFails`: reading the remote file throws or its content fails to
parse; `putFails`: writing the remote file throws. -/
structure TransportFaults where
  existsFails : Bool := false
  getFails : Bool := false
  putFails : Bool := false
deriving DecidableEq, Repr

/-- No injected faults. -/
def noFaults : TransportFaults := {}

/-- The `{success, message}` result of `sync()`. -/
structure SyncResult where
  success : Bool
  message : String
deriving DecidableEq, Repr

/-- Full post-state of a `sync()` call. -/
structure SyncStep where
  outcome : JSOutcome SyncResult
  storage : StorageState
  remote : Option GTDData
deriving DecidableEq, Repr

/-- `downloadData` from webdav.service.ts (client known non-null): probes
existence, returns `none` for a missing file, reads and parses otherwise;
any transport/parse failure is rethrown as its fixed message. -/
def downloadDataW (remote : Option GTDData) (f : TransportFaults) :
    JSOutcome (Option GTDData) :=
  if f.existsFails then .thrown "Failed to download data from server"
  else
    match remote with
    | none => .ok none
    | some d =>
      if f.getFails then .thrown "Failed to download data from server"
      else .ok (some d)

/-- The fixed failure message `sync()` returns from its catch-all. -/
def syncFailMsg : String :=
  "Sync failed. Please check your connection and try again."

/-- `sync()` from webdav.service.ts. `configured` is whether
`this.client` is non-null; the throw on an unconfigured client happens
before the try/catch and therefore escapes. Inside the try: read local
(`getData`, which may write-and-throw on a cold start), download remote;
missing remote ⇒ upload then stamp metadata; remote `lastSync` strictly
greater (missing compared as 0) ⇒ replace local wholesale then stamp;
otherwise upload then stamp. `uploadData` re-reads `getData()` (the
now-warm cache) and uploads it verbatim, without the fresh metadata
stamp. Every failure inside the try — transport, parse, or a storage
write — is caught and reported as `{success: false}`; note that a
metadata-stamp failure happens *after* the remote Document was saved
locally (download branch) or after the remote file was overwritten
(upload branches). -/
def sync (st : StorageState) (remote : Option GTDData) (configured : Bool)
    (f : TransportFaults) (now : Nat) : SyncStep :=
  if !configured then
    { outcome := .thrown "WebDAV client not initialized", storage := st,
      remote := remote }
  else
    match getDataS st with
    | (.thrown _, st₁) =>
      { outcome := .ok ⟨false, syncFailMsg⟩, storage := st₁, remote := remote }
    | (.ok localData, st₁) =>
      match downloadDataW remote f with
      | .thrown _ =>
        { outcome := .ok ⟨false, syncFailMsg⟩, storage := st₁,
          remote := remote }
      | .ok none =>
        if f.putFails then
          { outcome := .ok ⟨false, syncFailMsg⟩, storage := st₁,
            remote := remote }
        else
          match updateSyncMetadataS st₁ now with
          | (.thrown _, st₂) =>
            { outcome := .ok ⟨false, syncFailMsg⟩, storage := st₂,
              remote := some localData }
          | (.ok _, st₂) =>
            { outcome := .ok ⟨true,
                "Initial sync completed. Local data uploaded to server."⟩,
              storage := st₂, remote := some localData }
      | .ok (some remoteData) =>
        let localLastSync := localData.lastSync.getD 0
        let remoteLastSync := remoteData.lastSync.getD 0
        if remoteLastSync > localLastSync then
          match saveDataS st₁ remoteData with
          | (.thrown _, st₂) =>
            { outcome := .ok ⟨false, syncFailMsg⟩, storage := st₂,
              remote := remote }
          | (.ok _, st₂) =>
            match updateSyncMetadataS st₂ now with
            | (.thrown _, st₃) =>
              { outcome := .ok ⟨false, syncFailMsg⟩, storage := st₃,
                remote := remote }
            | (.ok _, st₃) =>
              { outcome := .ok ⟨true,
                  "Sync completed. Downloaded updates from server."⟩,
                storage := st₃, remote := remote }
        else
          if f.putFails then
            { outcome := .ok ⟨false, syncFailMsg⟩, storage := st₁,
              remote := remote }
          else
            match updateSyncMetadataS st₁ now with
            | (.thrown _, st₂) =>
              { outcome := .ok ⟨false, syncFailMsg⟩, storage := st₂,
                remote := some localData }
            | (.ok _, st₂) =>
              { outcome := .ok ⟨true,
                  "Sync completed. Uploaded local changes to server."⟩,
                storage := st₂, remote := some localData }

/-! Configuration (`initializeClient` / `initialize`) of the WebDAV
engine. The in-memory engine state holds the client (represented by its
base url when initialized), the in-memory config, and the config persisted
under the AsyncStorage credentials key. -/

/-- Stored WebDAV credentials. -/
structure WebDAVConfig where
  url : String
  username : String
  password : String
deriving DecidableEq, Repr

/-- In-memory and persisted state of the WebDAV service. -/
structure WebDAVState where
  client : Option String
  config : Option WebDAVConfig
  storedConfig : Option WebDAVConfig
deriving DecidableEq, Repr

/-- Substring matching at the head of a character list. -/
def matchesAt : List Char → List Char → Bool
  | [], _ => true
  | _ :: _, [] => false
  | p :: ps, c :: cs => p = c && matchesAt ps cs

/-- `String.prototype.includes`, on character lists. -/
def containsSub (pat : List Char) : List Char → Bool
  | [] => matchesAt pat []
  | c :: cs => matchesAt pat (c :: cs) || containsSub pat cs

/-- The URL normalization of `initializeClient`: trim, strip one trailing
slash, and append `/remote.php/dav/files/<username>` when the URL does not
already contain `/remote.php/dav`. -/
def normalizeWebdavUrl (url username : String) : String :=
  let u0 := jsTrim url
  let u1 := if u0.data.getLast? = some '/' then String.mk u0.data.dropLast
            else u0
  if containsSub "/remote.php/dav".data u1.data then u1
  else u1 ++ "/remote.php/dav/files/" ++ username

/-- `initializeClient(url, username, password, saveConfig)`: assigns
`this.client` and `this.config` with the normalized URL, then probes the
root; only after a successful probe, and only when `saveConfig`, persists
the config. A probe failure throws with client and config already
assigned. -/
def initializeClient (st : WebDAVState) (url username password : String)
    (saveConfig : Bool) (probeFails : Bool) :
    JSOutcome Unit × WebDAVState :=
  let webdavUrl := normalizeWebdavUrl url username
  let cfg : WebDAVConfig :=
    { url := webdavUrl, username := username, password := password }
  let st₁ : WebDAVState :=
    { st with client := some webdavUrl, config := some cfg }
  if probeFails then (.thrown "probe failed", st₁)
  else if saveConfig then (.ok (), { st₁ with storedConfig := some cfg })
  else (.ok (), st₁)

/-- `initialize(url, username, password)` (the public configure entry):
delegates to `initializeClient` with `saveConfig = true`, converting any
failure into the fixed connection-error message. -/
def initializeW (st : WebDAVState) (url username password : String)
    (probeFails : Bool) : JSOutcome Unit × WebDAVState :=
  match initializeClient st url username password true probeFails with
  | (.thrown _, st') =>
    (.thrown
      "Failed to connect to WebDAV server. Please check your credentials.",
     st')
  | (.ok _, st') => (.ok (), st')

/-- `isConfigured()`: both client and config non-null. -/
def isConfiguredW (st : WebDAVState) : Bool :=
  st.client.isSome && st.config.isSome

/-- `getConfig()`: url and username of the in-memory config, never the
password. -/
def getConfigW (st : WebDAVState) : Option (String × String) :=
  st.config.map (fun c => (c.url, c.username))

/-! Title date-parser (date-parser.ts). The regexes are all of the shape
`/\b(kw1|kw2)\b/gi`; the scanner below models exactly that: a match needs
a non-word character (or the string edge) on both sides, keywords are
compared case-insensitively, alternatives are tried in order at each
position, and a global replace consumes the match and resumes right after
it. Local civil time is modelled by a day number `today : Nat` with
fixed-length days, where day 0 is a Monday so that the weekday in the
source's Monday-0 convention (`(getDay() + 6) % 7`) is `today % 7`. -/

/-- JS `\w`: ASCII letters, digits, underscore. -/
def isWordChar (c : Char) : Bool :=
  c.isAlphanum || c = '_'

/-- Case-insensitive match of a lowercase keyword at the head of the
input; returns the rest on success. -/
def matchKw : List Char → List Char → Option (List Char)
  | [], rest => some rest
  | _ :: _, [] => none
  | k :: ks, c :: cs => if c.toLower = k then matchKw ks cs else none

/-- `\b` after a match: end of input or a non-word character. -/
def boundaryOk : List Char → Bool
  | [] => true
  | c :: _ => !isWordChar c

/-- Keyword match at the head with a trailing word boundary. -/
def matchKwB (kw : List Char) (s : List Char) : Option (List Char) :=
  match matchKw kw s with
  | some rest => if boundaryOk rest then some rest else none
  | none => none

/-- First alternative (in order) matching at the head. -/
def firstKwMatch (kws : List (List Char)) (s : List Char) :
    Option (List Char) :=
  kws.findSome? (fun kw => matchKwB kw s)

/-- Global replace of `\b(kw…)\b` with the empty string: scan left to
right, tracking whether the previous consumed character was a word
character (the leading `\b`). Fuel-based; `length + 1` steps always
suffice since every step consumes at least one character. -/
def removeKwsAux : Nat → List (List Char) → Bool → List Char → List Char
  | 0, _, _, s => s
  | _ + 1, _, _, [] => []
  | fuel + 1, kws, prevWord, c :: cs =>
    if !prevWord then
      match firstKwMatch kws (c :: cs) with
      | some rest => removeKwsAux fuel kws true rest
      | none => c :: removeKwsAux fuel kws (isWordChar c) cs
    else c :: removeKwsAux fuel kws (isWordChar c) cs

/-- Global removal of word-bounded keywords (see `removeKwsAux`). -/
def removeKws (kws : List (List Char)) (s : List Char) : List Char :=
  removeKwsAux (s.length + 1) kws false s

/-- Test counterpart of `removeKws`: does `\b(kw…)\b` match anywhere? -/
def hasKwAux (kws : List (List Char)) : Bool → List Char → Bool
  | _, [] => false
  | prevWord, c :: cs =>
    (!prevWord && (firstKwMatch kws (c :: cs)).isSome) ||
      hasKwAux kws (isWordChar c) cs

/-- `/\b(kw…)\b/i.test`. -/
def hasKw (kws : List (List Char)) (s : List Char) : Bool :=
  hasKwAux kws false s

/-- WEEKDAYS_DE from date-parser.ts. -/
def WEEKDAYS_DE : List (List Char) :=
  ["montag".data, "dienstag".data, "mittwoch".data, "donnerstag".data,
   "freitag".data, "samstag".data, "sonntag".data]

/-- WEEKDAYS_EN from date-parser.ts. -/
def WEEKDAYS_EN : List (List Char) :=
  ["monday".data, "tuesday".data, "wednesday".data, "thursday".data,
   "friday".data, "saturday".data, "sunday".data]

/-- The indexed weekday loop: first index whose keyword occurs
word-bounded in the title. -/
def findKwIdxFrom : Nat → List (List Char) → List Char → Option Nat
  | _, [], _ => none
  | i, kw :: rest, s =>
    if hasKw [kw] s then some i else findKwIdxFrom (i + 1) rest s

/-- First matching index in a weekday list. -/
def findKwIdx (kws : List (List Char)) (s : List Char) : Option Nat :=
  findKwIdxFrom 0 kws s

/-- `setHours(23, 59, 59, 999)` on a civil day: its last millisecond. -/
def endOfDay (day : Nat) : Nat :=
  day * 86400000 + 86399999

/-- `getNextWeekday(targetDay)` from date-parser.ts, over the civil-day
model: Monday-0 weekday arithmetic, a non-positive distance rolls a whole
week forward, and the result is the end of the reached day. -/
def getNextWeekday (targetDay : Nat) (today : Nat) : Nat :=
  let currentDay := today % 7
  let d0 : Int := (targetDay : Int) - (currentDay : Int)
  let daysUntilTarget : Int := if d0 ≤ 0 then d0 + 7 else d0
  endOfDay (today + daysUntilTarget.toNat)

/-- Whitespace words of a character list (maximal runs of non-whitespace
characters). -/
def wsWords : List Char → List Char → List (List Char)
  | [], acc => if acc.isEmpty then [] else [acc.reverse]
  | c :: cs, acc =>
    if c.isWhitespace then
      if acc.isEmpty then wsWords cs [] else acc.reverse :: wsWords cs []
    else wsWords cs (c :: acc)

/-- `replace(/\s+/g, ' ').trim()`: collapse whitespace runs to single
spaces and trim, i.e. join the whitespace words with single spaces. -/
def normalizeWs (s : List Char) : List Char :=
  List.intercalate [' '] (wsWords s [])

/-- The ParseResult shape of date-parser.ts. -/
structure ParseResult where
  cleanedTitle : String
  detectedDate : Option Nat
deriving DecidableEq, Repr

/-- Keyword 'heute'. -/
def kwHeute : List Char := "heute".data

/-- Keyword 'today'. -/
def kwToday : List Char := "today".data

/-- Keyword 'morgen'. -/
def kwMorgen : List Char := "morgen".data

/-- Keyword 'tomorrow'. -/
def kwTomorrow : List Char := "tomorrow".data

/-- The keyword-detection phase of `parseTaskTitle`: today/heute first,
else tomorrow/morgen, else the German weekday loop, else the English
weekday loop; returns the title with the matched keyword removed (not yet
normalized) and the detected date. -/
def parseStep (title : String) (today : Nat) : List Char × Option Nat :=
  let tl := title.data
  let lowerTitle := tl.map Char.toLower
  if hasKw [kwHeute, kwToday] lowerTitle then
    (removeKws [kwHeute, kwToday] tl, some (endOfDay today))
  else if hasKw [kwMorgen, kwTomorrow] lowerTitle then
    (removeKws [kwMorgen, kwTomorrow] tl, some (endOfDay (today + 1)))
  else
    match findKwIdx WEEKDAYS_DE lowerTitle with
    | some i =>
      (removeKws [WEEKDAYS_DE.getD i []] tl, some (getNextWeekday i today))
    | none =>
      match findKwIdx WEEKDAYS_EN lowerTitle with
      | some i =>
        (removeKws [WEEKDAYS_EN.getD i []] tl,
         some (getNextWeekday i today))
      | none => (tl, none)

/-- The closing phase of `parseTaskTitle`: whitespace-normalize the
stripped title; when that is empty and the input title does not trim to
the empty string, return the trimmed input title with the detected date,
otherwise the normalized stripped title. -/
def parseFinalize (title : String) (step : List Char × Option Nat) :
    ParseResult :=
  let cleaned := normalizeWs step.1
  if cleaned = [] ∧ jsTrim title ≠ "" then
    { cleanedTitle := jsTrim title, detectedDate := step.2 }
  else
    { cleanedTitle := String.mk cleaned, detectedDate := step.2 }

/-- `parseTaskTitle` from date-parser.ts: keyword detection and removal,
then normalization with the empty-title fallback. -/
def parseTaskTitle (title : String) (today : Nat) : ParseResult :=
  parseFinalize title (parseStep title today)

/-! Concrete fixtures used by witnesses and counterexamples. -/

/-- A concrete inbox task. -/
def baseTask : Task :=
  { id := "t1", title := "Call mom", description := none,
    status := some TaskStatus.inbox, priority := none, dueDate := none,
    projectId := none, tagIds := [], completed := false, completedAt := none,
    createdAt := 0, updatedAt := 0 }

/-- A concrete Document holding `baseTask`. -/
def baseDoc : GTDData :=
  { tasks := [baseTask], projects := [], tags := [], version := "1.0.0",
    lastSync := none, syncHash := none }

/-- A completed task stamped with the falsy timestamp `completedAt = 0`. -/
def zeroStampTask : Task :=
  { baseTask with
      id := "z1", status := none, completed := true,
      completedAt := some 0 }

/-- A Document holding only `zeroStampTask`. -/
def zeroStampDoc : GTDData :=
  { baseDoc with tasks := [zeroStampTask] }

/-- A task completed 31 days before `40 * 86400000`. -/
def oldDoneTask : Task :=
  { baseTask with
      id := "o1", status := none, completed := true,
      completedAt := some (9 * 86400000) }

/-- A task completed 1 day before `40 * 86400000`. -/
def newDoneTask : Task :=
  { baseTask with
      id := "n1", status := none, completed := true,
      completedAt := some (39 * 86400000) }

/-- The archive test Document of spec section 8. -/
def archiveDoc : GTDData :=
  { baseDoc with tasks := [oldDoneTask, newDoneTask] }

/-- A concrete project. -/
def projA : Project :=
  { id := "p1", name := "Home", description := none, goal := none,
    color := none, archived := false, createdAt := 0, updatedAt := 0 }

/-- A second concrete project. -/
def projB : Project :=
  { projA with id := "p2", name := "Work" }

/-- A task referencing project `p1`. -/
def refTask (n : String) : Task :=
  { baseTask with id := n, projectId := some "p1" }

/-- A Document with three tasks referencing `p1`, one unrelated task, and
two projects. -/
def projDoc : GTDData :=
  { baseDoc with
      tasks := [refTask "a1", refTask "a2", refTask "a3", baseTask],
      projects := [projA, projB] }

/-- A concrete tag named 'work'. -/
def tagWork : Tag :=
  { id := "g1", name := "work", color := none, createdAt := 0 }

/-- A concrete tag named 'home'. -/
def tagHome : Tag :=
  { id := "g2", name := "home", color := none, createdAt := 0 }

/-- A Document holding the two tags. -/
def tagDoc : GTDData :=
  { baseDoc with tags := [tagWork, tagHome] }

/-- A minimal task whose title is "Aa". -/
def hashTaskAa : Task :=
  { id := "a", title := "Aa", description := none, status := none,
    priority := none, dueDate := none, projectId := none, tagIds := [],
    completed := false, completedAt := none, createdAt := 0, updatedAt := 0 }

/-- A Document holding only `hashTaskAa`. -/
def hashDocAa : GTDData :=
  { tasks := [hashTaskAa], projects := [], tags := [], version := "1.0.0",
    lastSync := none, syncHash := none }

/-- The same Document with the single task's title changed to "BB". -/
def hashDocBB : GTDData :=
  { hashDocAa with tasks := [{ hashTaskAa with title := "BB" }] }

/-- A second task for the permutation witness. -/
def permTaskB : Task :=
  { hashTaskAa with id := "b", title := "Second" }

/-- Two-task Document, order a-b. -/
def permDocAB : GTDData :=
  { hashDocAa with tasks := [hashTaskAa, permTaskB] }

/-- The same tasks in order b-a. -/
def permDocBA : GTDData :=
  { hashDocAa with tasks := [permTaskB, hashTaskAa] }

/-- A warm storage state holding `baseDoc`. -/
def stBase : StorageState :=
  { cache := some baseDoc, stored := some baseDoc }

/-- A remote Document strictly newer than `baseDoc` (empty collections,
`lastSync = 50`). -/
def remoteNewerDoc : GTDData :=
  { tasks := [], projects := [], tags := [], version := "1.0.0",
    lastSync := some 50, syncHash := none }

/-- A warm storage state whose backing medium accepts one write and then
fails the next one. -/
def stFaulty : StorageState :=
  { cache := some baseDoc, stored := some baseDoc,
    writeFaults := [false, true] }

/-- A completely unconfigured WebDAV state. -/
def wdUnconfigured : WebDAVState :=
  { client := none, config := none, storedConfig := none }

/-! General helper lemmas. -/

/-- findIdx? over `l ++ [x]` when the predicate rejects all of `l` and
accepts `x`. -/
theorem findIdx?_append_single {α : Type} {p : α → Bool} {x : α}
    (hx : p x = true) :
    ∀ (l : List α) (i : Nat), (∀ a ∈ l, p a = false) →
      List.findIdx? p (l ++ [x]) i = some (i + l.length) := by
  intro l
  induction l with
  | nil =>
    intro i _
    simp [List.findIdx?_cons, hx]
  | cons a t ih =>
    intro i h
    have ha : p a = false := h a (by simp)
    rw [List.cons_append, List.findIdx?_cons, ha]
    simp only [Bool.false_eq_true, if_false]
    rw [ih (i + 1) (fun b hb => h b (by simp [hb]))]
    simp [Nat.add_comm, Nat.add_assoc, Nat.add_left_comm]

/-- Setting the element right after a prefix. -/
theorem set_append_len {α : Type} (l : List α) (x y : α) :
    (l ++ [x]).set l.length y = l ++ [y] := by
  induction l with
  | nil => simp
  | cons a t ih => simp [ih]

/-- Reading the element right after a prefix. -/
theorem getElem!_append_len {α : Type} [Inhabited α] (l : List α) (x : α) :
    (l ++ [x])[l.length]! = x := by
  rw [getElem!_pos]
  · simp
  · simp

/-- A filter and its complement partition the length. -/
theorem length_filter_split {α : Type} (l : List α) (p : α → Bool) :
    (l.filter p).length + (l.filter (fun a => !p a)).length = l.length := by
  induction l with
  | nil => rfl
  | cons a t ih => by_cases h : p a <;> simp [List.filter_cons, h] <;> omega

/-- updateTask when the promotion conditional does not fire: plain merge
at the found index. -/
theorem updateTask_no_promo (data : GTDData) (taskId : String)
    (updates : TaskPartial) (now : Nat) (i : Nat)
    (hfind : data.tasks.findIdx? (fun t => t.id == taskId) = some i)
    (hnp : promotionFires updates = false) :
    updateTask data taskId updates now =
      .ok ({ data with
               tasks := data.tasks.set i
                 (mergeTask data.tasks[i]! updates taskId now),
               version := STORAGE_VERSION },
           mergeTask data.tasks[i]! updates taskId now) := by
  simp only [updateTask, hfind]
  rw [if_neg (fun h => by rw [hnp] at h; exact absurd h.2 (by simp))]

/-! Claim theorems. -/

/-- C3, counterexample: `updateTask` on an inbox task with `dueDate: 0`
(the epoch timestamp, which is JS-falsy) does not fire the promotion rule:
the task keeps `dueDate = 0` and stays in status 'inbox', although the
claim promises a non-inbox status for every timestamp X. -/
theorem c3_counterexample :
    (updateTask baseDoc "t1" { dueDate := some (some 0) } 5).map
        (fun p => (p.2.dueDate, p.2.status)) =
      .ok (some 0, some TaskStatus.inbox) := by
  rfl

/-- C3, amended: the promotion rule, restricted to JS-truthy inputs. If
the pre-update status is 'inbox' and the update carries a nonzero dueDate
with no status, the result status is the default active status 'next'; if
it carries an explicit non-inbox status, the result status is that status;
and when the pre-update status is not 'inbox' the status is merely merged
(explicit status if provided, otherwise unchanged) — never auto-changed. -/
theorem c3_promotion (data : GTDData) (taskId : String)
    (updates : TaskPartial) (now : Nat) (i : Nat) (s : TaskStatus)
    (hfind : data.tasks.findIdx? (fun t => t.id == taskId) = some i) :
    (data.tasks[i]!.status = some TaskStatus.inbox →
      truthyNum (jsRead updates.dueDate) = true →
      jsRead updates.status = none →
      (updateTask data taskId updates now).map (fun p => p.2.status) =
        .ok (some TaskStatus.next)) ∧
    (data.tasks[i]!.status = some TaskStatus.inbox →
      jsRead updates.status = some s → s ≠ TaskStatus.inbox →
      (updateTask data taskId updates now).map (fun p => p.2.status) =
        .ok (some s)) ∧
    (data.tasks[i]!.status ≠ some TaskStatus.inbox →
      (updateTask data taskId updates now).map (fun p => p.2.status) =
        .ok (updates.status.getD data.tasks[i]!.status)) := by
  simp only [updateTask, hfind]
  refine ⟨?_, ?_, ?_⟩
  · intro h1 h2 h3
    rw [if_pos ⟨h1, by simp [promotionFires, h2]⟩]
    simp [h3, Except.map]
  · intro h1 h2 h3
    rw [if_pos ⟨h1, by simp [promotionFires, h2, h3]⟩]
    simp [h2, Except.map]
  · intro h1
    rw [if_neg (fun h => h1 h.1)]
    simp [mergeTask, Except.map]

/-- C3, witness: on the concrete inbox task, an update carrying only
`dueDate = 7` results in status 'next'. -/
theorem c3_promotion_witness :
    (updateTask baseDoc "t1" { dueDate := some (some 7) } 5).map
        (fun p => p.2.status) = .ok (some TaskStatus.next) :=
  (c3_promotion baseDoc "t1" { dueDate := some (some 7) } 5 0
    TaskStatus.next (by rfl)).1 (by rfl) (by rfl) (by rfl)

/-- C6, counterexample: a completed task stamped `completedAt = 0` is
strictly older than the cutoff `now - 30*86400000 = 10`, so the claim
demands its removal with count 1; the code's JS-truthiness test
`!task.completedAt` treats the 0 timestamp as missing, keeps the task,
and returns count 0. -/
theorem c6_counterexample :
    zeroStampTask.completed = true ∧
    zeroStampTask.completedAt = some 0 ∧
    ((0 : Int) < (30 * 86400000 + 10 : Int) - 30 * 86400000) ∧
    (archiveOldCompletedTasks zeroStampDoc 30 (30 * 86400000 + 10)).2 = 0 ∧
    (archiveOldCompletedTasks zeroStampDoc 30 (30 * 86400000 + 10)).1.tasks
      = [zeroStampTask] := by
  refine ⟨rfl, rfl, by norm_num, by decide, by decide⟩

/-- C6, amended: `archiveOlderThan` removes exactly the tasks that are
completed and carry a *nonzero* `completedAt` that is at most
`now - days*86400000` (the boundary value itself is removed), and returns
the number removed; tasks without `completedAt` — and, by JS truthiness,
tasks stamped `completedAt = 0` — are never removed. On the spec's
instance (one task completed 31 days ago, one 1 day ago, days = 30) it
removes exactly the first and returns 1. -/
theorem c6_archive (data : GTDData) (daysOld now : Nat) :
    ((archiveOldCompletedTasks data daysOld now).1.tasks =
      data.tasks.filter (fun t =>
        !(t.completed &&
          (match t.completedAt with
           | some c =>
             c != 0 && decide ((c : Int) ≤ (now : Int) - daysOld * 86400000)
           | none => false))) ∧
    (archiveOldCompletedTasks data daysOld now).2 =
      (data.tasks.filter (fun t =>
        t.completed &&
        (match t.completedAt with
         | some c =>
           c != 0 && decide ((c : Int) ≤ (now : Int) - daysOld * 86400000)
         | none => false))).length) ∧
    (archiveOldCompletedTasks archiveDoc 30 (40 * 86400000)).2 = 1 ∧
    (archiveOldCompletedTasks archiveDoc 30 (40 * 86400000)).1.tasks =
      [newDoneTask] := by
  have hpt : ∀ t : Task,
      archiveKeeps ((now : Int) - daysOld * 86400000) t =
        !(t.completed &&
          (match t.completedAt with
           | some c =>
             c != 0 && decide ((c : Int) ≤ (now : Int) - daysOld * 86400000)
           | none => false)) := by
    intro t
    unfold archiveKeeps truthyNum
    cases hcmp : t.completed
    · simp
    · cases hca : t.completedAt with
      | none => simp
      | some c =>
        by_cases hc0 : c = 0
        · subst hc0; simp
        · by_cases hle : (c : Int) ≤ (now : Int) - daysOld * 86400000
          · have hlt : ¬ ((now : Int) - daysOld * 86400000 < c) :=
              not_lt.mpr hle
            simp [hc0, hle, hlt, Option.getD]
          · have hlt : (now : Int) - daysOld * 86400000 < c := not_le.mp hle
            simp [hc0, hle, hlt, Option.getD]
  refine ⟨⟨?_, ?_⟩, by decide, by decide⟩
  · show data.tasks.filter (archiveKeeps ((now : Int) - daysOld * 86400000))
        = _
    exact List.filter_congr (fun t _ => hpt t)
  · show data.tasks.length -
        (data.tasks.filter
          (archiveKeeps ((now : Int) - daysOld * 86400000))).length = _
    rw [List.filter_congr (fun t _ => hpt t)]
    have h2 := length_filter_split data.tasks (fun t =>
        t.completed &&
        (match t.completedAt with
         | some c =>
           c != 0 && decide ((c : Int) ≤ (now : Int) - daysOld * 86400000)
         | none => false))
    omega

/-- C4: the `completed ⇔ completedAt` invariant through a
create → complete → uncomplete round trip for a fresh id: creation yields
not-completed with no `completedAt`; completing sets both fields together
(`completedAt` to the call's time); uncompleting clears both together. -/
theorem c4_completed_invariant (data : GTDData) (td : TaskPartial)
    (id : String) (n1 n2 n3 : Nat)
    (hfresh : ∀ t ∈ data.tasks, t.id ≠ id) :
    (createTask data td id n1).2.completed = false ∧
    (createTask data td id n1).2.completedAt = none ∧
    (completeTask (createTask data td id n1).1 id n2).map
        (fun p => (p.2.completed, p.2.completedAt)) = .ok (true, some n2) ∧
    ((completeTask (createTask data td id n1).1 id n2).bind
        (fun p => uncompleteTask p.1 id n3)).map
        (fun p => (p.2.completed, p.2.completedAt)) = .ok (false, none) := by
  have hreject : ∀ a ∈ data.tasks, ((fun t : Task => t.id == id) a) = false :=
    fun a ha => beq_eq_false_iff_ne.mpr (hfresh a ha)
  have htasks1 : (createTask data td id n1).1.tasks =
      data.tasks ++ [(createTask data td id n1).2] := rfl
  have hfind1 : (createTask data td id n1).1.tasks.findIdx?
      (fun t => t.id == id) = some data.tasks.length := by
    rw [htasks1]
    simpa using findIdx?_append_single (p := fun t : Task => t.id == id)
      (x := (createTask data td id n1).2) (beq_self_eq_true id)
      data.tasks 0 hreject
  have hcur1 : (createTask data td id n1).1.tasks[data.tasks.length]! =
      (createTask data td id n1).2 := by
    rw [htasks1]
    exact getElem!_append_len data.tasks (createTask data td id n1).2
  have hc2 : completeTask (createTask data td id n1).1 id n2 =
      .ok ({ (createTask data td id n1).1 with
               tasks := (createTask data td id n1).1.tasks.set
                 data.tasks.length
                 (mergeTask (createTask data td id n1).2
                   { completed := some true, completedAt := some (some n2) }
                   id n2),
               version := STORAGE_VERSION },
           mergeTask (createTask data td id n1).2
             { completed := some true, completedAt := some (some n2) }
             id n2) := by
    unfold completeTask
    rw [updateTask_no_promo ((createTask data td id n1).1) id
      { completed := some true, completedAt := some (some n2) } n2
      data.tasks.length hfind1 rfl, hcur1]
  have htasks2 : (({ (createTask data td id n1).1 with
      tasks := (createTask data td id n1).1.tasks.set data.tasks.length
        (mergeTask (createTask data td id n1).2
          { completed := some true, completedAt := some (some n2) } id n2),
      version := STORAGE_VERSION } : GTDData)).tasks =
      data.tasks ++ [mergeTask (createTask data td id n1).2
        { completed := some true, completedAt := some (some n2) } id n2] := by
    show (createTask data td id n1).1.tasks.set data.tasks.length _ = _
    rw [htasks1]
    exact set_append_len data.tasks _ _
  have hfind2 : (({ (createTask data td id n1).1 with
      tasks := (createTask data td id n1).1.tasks.set data.tasks.length
        (mergeTask (createTask data td id n1).2
          { completed := some true, completedAt := some (some n2) } id n2),
      version := STORAGE_VERSION } : GTDData)).tasks.findIdx?
        (fun t => t.id == id) = some data.tasks.length := by
    rw [htasks2]
    simpa using findIdx?_append_single (p := fun t : Task => t.id == id)
      (x := mergeTask (createTask data td id n1).2
        { completed := some true, completedAt := some (some n2) } id n2)
      (beq_self_eq_true id) data.tasks 0 hreject
  have hcur2 : (({ (createTask data td id n1).1 with
      tasks := (createTask data td id n1).1.tasks.set data.tasks.length
        (mergeTask (createTask data td id n1).2
          { completed := some true, completedAt := some (some n2) } id n2),
      version := STORAGE_VERSION } : GTDData)).tasks[data.tasks.length]! =
      mergeTask (createTask data td id n1).2
        { completed := some true, completedAt := some (some n2) } id n2 := by
    rw [htasks2]
    exact getElem!_append_len data.tasks _
  refine ⟨rfl, rfl, ?_, ?_⟩
  · rw [hc2]
    rfl
  · rw [hc2]
    show (uncompleteTask _ id n3).map _ = _
    unfold uncompleteTask
    rw [updateTask_no_promo _ id
      { completed := some false, completedAt := some none } n3
      data.tasks.length hfind2 rfl, hcur2]
    rfl

/-- C4, witness: the round trip on the concrete base Document with the
fresh id "k9" and times 1, 2, 3. -/
theorem c4_completed_invariant_witness :
    (createTask baseDoc {} "k9" 1).2.completed = false ∧
    (createTask baseDoc {} "k9" 1).2.completedAt = none ∧
    (completeTask (createTask baseDoc {} "k9" 1).1 "k9" 2).map
        (fun p => (p.2.completed, p.2.completedAt)) = .ok (true, some 2) ∧
    ((completeTask (createTask baseDoc {} "k9" 1).1 "k9" 2).bind
        (fun p => uncompleteTask p.1 "k9" 3)).map
        (fun p => (p.2.completed, p.2.completedAt)) = .ok (false, none) :=
  c4_completed_invariant baseDoc {} "k9" 1 2 3 (by decide)

/-- C7: deleting a project whose id occurs exactly once removes exactly
that one project, keeps every task (same count, each referencing task kept
with `projectId` cleared and `updatedAt` stamped, each other task
untouched), and leaves the tags untouched. -/
theorem c7_deleteProject (data : GTDData) (pid : String) (now : Nat)
    (huniq : (data.projects.filter (fun p => p.id == pid)).length = 1) :
    ((deleteProject data pid now).projects.length + 1 =
      data.projects.length) ∧
    (∀ q ∈ data.projects, q.id ≠ pid →
      q ∈ (deleteProject data pid now).projects) ∧
    (∀ q ∈ (deleteProject data pid now).projects,
      q ∈ data.projects ∧ q.id ≠ pid) ∧
    (deleteProject data pid now).tags = data.tags ∧
    (deleteProject data pid now).tasks.length = data.tasks.length ∧
    (∀ i, (h : i < data.tasks.length) →
      (deleteProject data pid now).tasks[i]? =
        some (if data.tasks[i].projectId == some pid then
                { data.tasks[i] with projectId := none, updatedAt := now }
              else data.tasks[i])) := by
  refine ⟨?_, ?_, ?_, rfl, by simp [deleteProject], ?_⟩
  · have h2 := length_filter_split data.projects (fun p => p.id == pid)
    have h3 : (deleteProject data pid now).projects =
        data.projects.filter (fun a => !(a.id == pid)) := by
      simp [deleteProject, bne]
    rw [h3]
    omega
  · intro q hq hne
    have : (deleteProject data pid now).projects =
        data.projects.filter (fun a => !(a.id == pid)) := by
      simp [deleteProject, bne]
    rw [this]
    exact List.mem_filter.mpr ⟨hq, by simp [hne]⟩
  · intro q hq
    have : (deleteProject data pid now).projects =
        data.projects.filter (fun a => !(a.id == pid)) := by
      simp [deleteProject, bne]
    rw [this] at hq
    have := List.mem_filter.mp hq
    refine ⟨this.1, ?_⟩
    simpa using this.2
  · intro i h
    show (data.tasks.map _)[i]? = _
    rw [List.getElem?_map, List.getElem?_eq_getElem h]
    rfl

/-- C7, witness: deleting project p1, referenced by 3 of the 4 tasks of
the fixture Document. -/
theorem c7_deleteProject_witness :
    ((deleteProject projDoc "p1" 9).projects.length + 1 =
      projDoc.projects.length) ∧
    (∀ q ∈ projDoc.projects, q.id ≠ "p1" →
      q ∈ (deleteProject projDoc "p1" 9).projects) ∧
    (∀ q ∈ (deleteProject projDoc "p1" 9).projects,
      q ∈ projDoc.projects ∧ q.id ≠ "p1") ∧
    (deleteProject projDoc "p1" 9).tags = projDoc.tags ∧
    (deleteProject projDoc "p1" 9).tasks.length = projDoc.tasks.length ∧
    (∀ i, (h : i < projDoc.tasks.length) →
      (deleteProject projDoc "p1" 9).tasks[i]? =
        some (if projDoc.tasks[i].projectId == some "p1" then
                { projDoc.tasks[i] with projectId := none, updatedAt := 9 }
              else projDoc.tasks[i])) :=
  c7_deleteProject projDoc "p1" 9 (by decide)

/-- createTag with a present name preserves case-insensitive uniqueness of
tag names: either an existing tag matches (collection unchanged) or the
appended name matches no existing one. -/
theorem createTag_nodup_preserved (data : GTDData) (td : TagPartial)
    (nm id : String) (now : Nat) (hnm : td.name = some nm)
    (hnd : (data.tags.map (fun t => jsLower t.name)).Nodup) :
    ((createTag data td id now).1.tags.map
      (fun t => jsLower t.name)).Nodup := by
  cases hfind : data.tags.find? (fun t => jsLower t.name == jsLower nm) with
  | some t0 =>
    simp only [createTag, hnm, hfind]
    exact hnd
  | none =>
    have hnotin : ∀ t ∈ data.tags, jsLower t.name ≠ jsLower nm := by
      intro t ht
      have := List.find?_eq_none.mp hfind t ht
      simpa using this
    simp only [createTag, hnm, hfind]
    rw [List.map_append, List.nodup_append]
    refine ⟨hnd, by simp, ?_⟩
    intro x hx hx2
    obtain ⟨t, ht, rfl⟩ := List.mem_map.mp hx
    simp only [List.map_cons, List.map_nil, List.mem_singleton] at hx2
    exact hnotin t ht (by simpa using hx2)

/-- C10, counterexample: `updateTag` performs no uniqueness check, so
renaming 'home' to 'WORK' while a tag 'work' exists yields two tags whose
names are equal ignoring case. -/
theorem c10_counterexample :
    (updateTag tagDoc "g2" { name := some "WORK" }).map
        (fun p => p.1.tags.map Tag.name) = .ok ["work", "WORK"] ∧
    jsLower "work" = jsLower "WORK" := by
  exact ⟨rfl, rfl⟩

/-- C10, amended: `getOrCreateTag` and `createTag` (with a present name)
are case-insensitively duplicate-free: when some existing tag matches the
name ignoring case they return an existing matching tag and leave the
Document unchanged, and both preserve the case-insensitive uniqueness
invariant of tag names; `updateTag`, however, performs no check and can
break the invariant (see the counterexample). -/
theorem c10_tag_uniqueness (data : GTDData) (nm : String)
    (color : Option String) (td : TagPartial) (id : String) (now : Nat) :
    ((∃ t ∈ data.tags, jsLower t.name = jsLower nm) →
      (getOrCreateTag data nm color id now).1 = data ∧
      (getOrCreateTag data nm color id now).2 ∈ data.tags ∧
      jsLower (getOrCreateTag data nm color id now).2.name = jsLower nm) ∧
    (td.name = some nm →
      (∃ t ∈ data.tags, jsLower t.name = jsLower nm) →
      (createTag data td id now).1 = data ∧
      (createTag data td id now).2 ∈ data.tags ∧
      jsLower (createTag data td id now).2.name = jsLower nm) ∧
    (td.name = some nm →
      (data.tags.map (fun t => jsLower t.name)).Nodup →
      ((createTag data td id now).1.tags.map
        (fun t => jsLower t.name)).Nodup) ∧
    ((data.tags.map (fun t => jsLower t.name)).Nodup →
      ((getOrCreateTag data nm color id now).1.tags.map
        (fun t => jsLower t.name)).Nodup) := by
  have hfound : ∀ t0, data.tags.find?
        (fun t => jsLower t.name == jsLower nm) = some t0 →
      t0 ∈ data.tags ∧ jsLower t0.name = jsLower nm := by
    intro t0 h
    refine ⟨List.mem_of_find?_eq_some h, ?_⟩
    have := List.find?_some h
    simpa using this
  have hsome : (∃ t ∈ data.tags, jsLower t.name = jsLower nm) →
      ∃ t0, data.tags.find? (fun t => jsLower t.name == jsLower nm) =
        some t0 := by
    intro ⟨t, ht, hname⟩
    have : (data.tags.find?
        (fun t => jsLower t.name == jsLower nm)).isSome := by
      rw [List.find?_isSome]
      exact ⟨t, ht, by simpa using hname⟩
    exact Option.isSome_iff_exists.mp this
  refine ⟨?_, ?_, fun hnm hnd => createTag_nodup_preserved data td nm id now
    hnm hnd, ?_⟩
  · intro hex
    obtain ⟨t0, hf⟩ := hsome hex
    have h0 := hfound t0 hf
    unfold getOrCreateTag
    rw [hf]
    exact ⟨rfl, h0.1, h0.2⟩
  · intro hnm hex
    obtain ⟨t0, hf⟩ := hsome hex
    have h0 := hfound t0 hf
    refine ⟨?_, ?_, ?_⟩ <;> simp only [createTag, hnm, hf]
    · exact h0.1
    · exact h0.2
  · intro hnd
    unfold getOrCreateTag
    cases hf : data.tags.find? (fun t => jsLower t.name == jsLower nm) with
    | some t0 => exact hnd
    | none =>
      exact createTag_nodup_preserved data
        { name := some nm, color := some color } nm id now rfl hnd

/-- C10, witness: on the fixture Document, `getOrCreateTag "WoRk"` returns
the existing 'work' tag and changes nothing, and the create path preserves
uniqueness. -/
theorem c10_tag_uniqueness_witness :
    ((getOrCreateTag tagDoc "WoRk" none "g9" 7).1 = tagDoc ∧
      (getOrCreateTag tagDoc "WoRk" none "g9" 7).2 ∈ tagDoc.tags ∧
      jsLower (getOrCreateTag tagDoc "WoRk" none "g9" 7).2.name =
        jsLower "WoRk") ∧
    ((getOrCreateTag tagDoc "WoRk" none "g9" 7).1.tags.map
      (fun t => jsLower t.name)).Nodup :=
  ⟨(c10_tag_uniqueness tagDoc "WoRk" none {} "g9" 7).1
    ⟨tagWork, by decide, by decide⟩,
   (c10_tag_uniqueness tagDoc "WoRk" none {} "g9" 7).2.2.2 (by decide)⟩

/-- Totality of the code-point comparison. -/
theorem lexLe_total : ∀ (a b : List Char),
    lexLe a b = true ∨ lexLe b a = true := by
  intro a
  induction a with
  | nil => intro b; left; rfl
  | cons c cs ih =>
    intro b
    cases b with
    | nil => right; rfl
    | cons d ds =>
      by_cases h : c.toNat = d.toNat
      · rcases ih ds with h1 | h1
        · left; simp [lexLe, h, h1]
        · right; simp [lexLe, h.symm, h1]
      · rcases Nat.lt_or_ge c.toNat d.toNat with hlt | hge
        · left; simp [lexLe, h, hlt]
        · have hgt : d.toNat < c.toNat :=
            lt_of_le_of_ne hge (fun e => h e.symm)
          have hne : d.toNat ≠ c.toNat := fun e => h e.symm
          right; simp [lexLe, hne, hgt]

/-- Transitivity of the code-point comparison. -/
theorem lexLe_trans : ∀ (a b c : List Char),
    lexLe a b = true → lexLe b c = true → lexLe a c = true := by
  intro a
  induction a with
  | nil => intro b c _ _; rfl
  | cons x xs ih =>
    intro b c hab hbc
    cases b with
    | nil => simp [lexLe] at hab
    | cons y ys =>
      cases c with
      | nil => simp [lexLe] at hbc
      | cons z zs =>
        by_cases hxy : x.toNat = y.toNat
        · by_cases hyz : y.toNat = z.toNat
          · have hxz : x.toNat = z.toNat := hxy.trans hyz
            simp only [lexLe, hxy, if_true, if_pos hxy] at hab
            simp only [lexLe, if_pos hyz] at hbc
            simp only [lexLe, if_pos hxz]
            exact ih ys zs hab hbc
          · simp only [lexLe, if_neg hyz] at hbc
            have hbc' : y.toNat < z.toNat := of_decide_eq_true hbc
            have hxz : x.toNat ≠ z.toNat := by omega
            have hlt : x.toNat < z.toNat := by omega
            simp [lexLe, hxz, hlt]
        · simp only [lexLe, if_neg hxy] at hab
          have hab' : x.toNat < y.toNat := of_decide_eq_true hab
          by_cases hyz : y.toNat = z.toNat
          · have hlt : x.toNat < z.toNat := by omega
            have hxz : x.toNat ≠ z.toNat := by omega
            simp [lexLe, hxz, hlt]
          · simp only [lexLe, if_neg hyz] at hbc
            have hbc' : y.toNat < z.toNat := of_decide_eq_true hbc
            have hlt : x.toNat < z.toNat := by omega
            have hxz : x.toNat ≠ z.toNat := by omega
            simp [lexLe, hxz, hlt]

/-- Antisymmetry of the code-point comparison. -/
theorem lexLe_antisymm : ∀ (a b : List Char),
    lexLe a b = true → lexLe b a = true → a = b := by
  intro a
  induction a with
  | nil =>
    intro b _ hba
    cases b with
    | nil => rfl
    | cons d ds => simp [lexLe] at hba
  | cons c cs ih =>
    intro b hab hba
    cases b with
    | nil => simp [lexLe] at hab
    | cons d ds =>
      by_cases h : c.toNat = d.toNat
      · have hchar : c = d := by
          apply Char.ext
          apply UInt32.ext
          simpa [Char.toNat] using h
        have htail : cs = ds :=
          ih ds (by simpa [lexLe, h] using hab)
            (by simpa [lexLe, h.symm] using hba)
        rw [hchar, htail]
      · simp only [lexLe, if_neg h] at hab
        have hne : d.toNat ≠ c.toNat := fun e => h e.symm
        simp only [lexLe, if_neg hne] at hba
        have h1 := of_decide_eq_true hab
        have h2 := of_decide_eq_true hba
        omega

/-- Two lists sorted under the id comparison that are permutations of each
other and have pairwise-distinct keys are equal. -/
theorem sorted_perm_eq_of_nodup_keys {α : Type} (key : α → String) :
    ∀ (l₁ l₂ : List α), List.Perm l₁ l₂ →
      List.Pairwise (fun a b => strLe (key a) (key b) = true) l₁ →
      List.Pairwise (fun a b => strLe (key a) (key b) = true) l₂ →
      (l₁.map key).Nodup → l₁ = l₂ := by
  intro l₁
  induction l₁ with
  | nil =>
    intro l₂ hp _ _ _
    exact (List.Perm.eq_nil hp.symm).symm
  | cons a t ih =>
    intro l₂ hp hs₁ hs₂ hnd
    cases l₂ with
    | nil => exact absurd (List.Perm.eq_nil hp) (by simp)
    | cons b t₂ =>
      have hnd' : (key a :: t.map key).Nodup := by simpa using hnd
      have hmem_a : a ∈ b :: t₂ := hp.mem_iff.mp (List.mem_cons_self a t)
      have hmem_b : b ∈ a :: t := hp.symm.mem_iff.mp (List.mem_cons_self b t₂)
      have hab : a = b := by
        by_contra hne
        have hbt : b ∈ t := by
          rcases List.mem_cons.mp hmem_b with h | h
          · exact absurd h.symm hne
          · exact h
        have hat2 : a ∈ t₂ := by
          rcases List.mem_cons.mp hmem_a with h | h
          · exact absurd h hne
          · exact h
        have h1 : strLe (key a) (key b) = true :=
          (List.pairwise_cons.mp hs₁).1 b hbt
        have h2 : strLe (key b) (key a) = true :=
          (List.pairwise_cons.mp hs₂).1 a hat2
        have hdata : (key a).data = (key b).data :=
          lexLe_antisymm (key a).data (key b).data h1 h2
        have hk : key a = key b := congrArg String.mk hdata
        have hnotin : key a ∉ t.map key := (List.nodup_cons.mp hnd').1
        exact hnotin (hk ▸ List.mem_map_of_mem key hbt)
      subst hab
      have ht : List.Perm t t₂ := hp.cons_inv
      have := ih t₂ ht (List.pairwise_cons.mp hs₁).2
        (List.pairwise_cons.mp hs₂).2 (List.nodup_cons.mp hnd').2
      rw [this]

/-- Sorting by pairwise-distinct keys is permutation-invariant. -/
theorem sortByIdKey_perm_eq {α : Type} (key : α → String) (l₁ l₂ : List α)
    (hp : List.Perm l₁ l₂) (hnd : (l₁.map key).Nodup) :
    sortByIdKey key l₁ = sortByIdKey key l₂ := by
  have htrans : ∀ a b c : α, strLe (key a) (key b) = true →
      strLe (key b) (key c) = true → strLe (key a) (key c) = true :=
    fun a b c hab hbc => lexLe_trans _ _ _ hab hbc
  have htot : ∀ a b : α,
      (strLe (key a) (key b) || strLe (key b) (key a)) = true := by
    intro a b
    rcases lexLe_total (key a).data (key b).data with h | h <;>
      simp [strLe, h]
  have hs₁ : List.Pairwise
      (fun a b => strLe (key a) (key b) = true) (sortByIdKey key l₁) :=
    List.sorted_mergeSort htrans htot l₁
  have hs₂ : List.Pairwise
      (fun a b => strLe (key a) (key b) = true) (sortByIdKey key l₂) :=
    List.sorted_mergeSort htrans htot l₂
  have hperm : List.Perm (sortByIdKey key l₁) (sortByIdKey key l₂) :=
    ((List.mergeSort_perm l₁ _).trans hp).trans
      (List.mergeSort_perm l₂ _).symm
  have hnd₁ : ((sortByIdKey key l₁).map key).Nodup :=
    (((List.mergeSort_perm l₁ _).map key).symm).nodup hnd
  exact sorted_perm_eq_of_nodup_keys key _ _ hperm hs₁ hs₂ hnd₁

/-- Sorting the empty collection. -/
theorem sortByIdKey_nil {α : Type} (key : α → String) :
    sortByIdKey key [] = [] :=
  List.Perm.eq_nil (List.mergeSort_perm [] _)

/-- Sorting a one-element collection. -/
theorem sortByIdKey_singleton {α : Type} (key : α → String) (x : α) :
    sortByIdKey key [x] = [x] :=
  List.perm_singleton.mp (List.mergeSort_perm [x] _)

/-- The two-character collision of the Java-style rolling hash: from any
state, consuming "Aa" and consuming "BB" reach the same state, since
31*65 + 97 = 31*66 + 66 = 2112. -/
theorem jsHashStep_pair_collision (h : Int) :
    jsHashStep (jsHashStep h 'A') 'a' = jsHashStep (jsHashStep h 'B') 'B' := by
  have cA : ('A' : Char).toNat = 65 := rfl
  have ca : ('a' : Char).toNat = 97 := rfl
  have cB : ('B' : Char).toNat = 66 := rfl
  unfold jsHashStep toInt32
  rw [cA, ca, cB]
  omega

set_option maxRecDepth 40000 in
/-- C5, counterexample: the rolling 31-based 32-bit hash is not injective:
the Documents with a single task titled "Aa" and "BB" differ in exactly
that one field but have the same digest (the classic 'Aa'/'BB' collision
of the Java-style string hash), refuting 'the digest changes whenever any
single field of any entity changes'. -/
theorem c5_counterexample :
    hashDocAa ≠ hashDocBB ∧
    hashDocAa.tasks = [hashTaskAa] ∧
    hashDocBB.tasks = [{ hashTaskAa with title := "BB" }] ∧
    calculateHash hashDocAa = calculateHash hashDocBB := by
  refine ⟨by decide, rfl, rfl, ?_⟩
  have e1 : calculateHash hashDocAa =
      jsToString36 (jsHashString (jobj
        [jfield "tasks" (jarr ([hashTaskAa].map jsonOfTask)),
         jfield "projects" (jarr (([] : List Project).map jsonOfProject)),
         jfield "tags" (jarr (([] : List Tag).map jsonOfTag))])) := by
    unfold calculateHash sortedDataJson
    rw [show hashDocAa.tasks = [hashTaskAa] from rfl,
      show hashDocAa.projects = ([] : List Project) from rfl,
      show hashDocAa.tags = ([] : List Tag) from rfl,
      sortByIdKey_singleton, sortByIdKey_nil, sortByIdKey_nil]
  have e2 : calculateHash hashDocBB =
      jsToString36 (jsHashString (jobj
        [jfield "tasks"
          (jarr ([{ hashTaskAa with title := "BB" }].map jsonOfTask)),
         jfield "projects" (jarr (([] : List Project).map jsonOfProject)),
         jfield "tags" (jarr (([] : List Tag).map jsonOfTag))])) := by
    unfold calculateHash sortedDataJson
    rw [show hashDocBB.tasks = [{ hashTaskAa with title := "BB" }] from rfl,
      show hashDocBB.projects = ([] : List Project) from rfl,
      show hashDocBB.tags = ([] : List Tag) from rfl,
      sortByIdKey_singleton, sortByIdKey_nil, sortByIdKey_nil]
  have hdA : (jobj
      [jfield "tasks" (jarr ([hashTaskAa].map jsonOfTask)),
       jfield "projects" (jarr (([] : List Project).map jsonOfProject)),
       jfield "tags" (jarr (([] : List Tag).map jsonOfTag))]).data =
      ("\x7b\"tasks\":[\x7b\"id\":\"a\",\"title\":\"").data ++ ['A', 'a'] ++
      ("\",\"tagIds\":[],\"completed\":false,\"createdAt\":0,\"updatedAt\":0\x7d],\"projects\":[],\"tags\":[]\x7d").data := by
    decide
  have hdB : (jobj
      [jfield "tasks"
        (jarr ([{ hashTaskAa with title := "BB" }].map jsonOfTask)),
       jfield "projects" (jarr (([] : List Project).map jsonOfProject)),
       jfield "tags" (jarr (([] : List Tag).map jsonOfTag))]).data =
      ("\x7b\"tasks\":[\x7b\"id\":\"a\",\"title\":\"").data ++ ['B', 'B'] ++
      ("\",\"tagIds\":[],\"completed\":false,\"createdAt\":0,\"updatedAt\":0\x7d],\"projects\":[],\"tags\":[]\x7d").data := by
    decide
  have hh : jsHashString (jobj
      [jfield "tasks" (jarr ([hashTaskAa].map jsonOfTask)),
       jfield "projects" (jarr (([] : List Project).map jsonOfProject)),
       jfield "tags" (jarr (([] : List Tag).map jsonOfTag))]) =
      jsHashString (jobj
      [jfield "tasks"
        (jarr ([{ hashTaskAa with title := "BB" }].map jsonOfTask)),
       jfield "projects" (jarr (([] : List Project).map jsonOfProject)),
       jfield "tags" (jarr (([] : List Tag).map jsonOfTag))]) := by
    unfold jsHashString
    rw [hdA, hdB, List.foldl_append, List.foldl_append, List.foldl_append,
      List.foldl_append]
    congr 1
  rw [e1, e2, hh]

/-- C5, amended: `computeHash` is invariant under any permutation of the
tasks, projects and tags arrays as long as ids are pairwise distinct
within each collection (which the data model guarantees); it is sensitive
to most single-field changes but, being a 32-bit rolling hash, not to all
of them — see the counterexample. -/
theorem c5_hash_perm (d₁ d₂ : GTDData)
    (hT : List.Perm d₁.tasks d₂.tasks)
    (hP : List.Perm d₁.projects d₂.projects)
    (hG : List.Perm d₁.tags d₂.tags)
    (hnT : (d₁.tasks.map Task.id).Nodup)
    (hnP : (d₁.projects.map Project.id).Nodup)
    (hnG : (d₁.tags.map Tag.id).Nodup) :
    calculateHash d₁ = calculateHash d₂ := by
  unfold calculateHash sortedDataJson
  rw [sortByIdKey_perm_eq Task.id _ _ hT hnT,
    sortByIdKey_perm_eq Project.id _ _ hP hnP,
    sortByIdKey_perm_eq Tag.id _ _ hG hnG]

/-- C5, witness: the two-task Document hashed in both orders. -/
theorem c5_hash_perm_witness :
    calculateHash permDocAB = calculateHash permDocBA :=
  c5_hash_perm permDocAB permDocBA (List.Perm.swap permTaskB hashTaskAa [])
    (List.Perm.refl []) (List.Perm.refl []) (by decide) (by decide)
    (by decide)

/-- The hash ignores the `version` field. -/
theorem calculateHash_version (d : GTDData) (v : String) :
    calculateHash { d with version := v } = calculateHash d := rfl

/-- Stamping after a version restamp is the same as stamping directly. -/
theorem stampDoc_version (d : GTDData) (v : String) (now : Nat) :
    stampDoc { d with version := v } now = stampDoc d now := rfl

/-- Evaluation of `updateSyncMetadata` on a warm cache: the cache is
stamped, then the write consumes the next scheduled fault; on failure the
backing key is left alone and the stamped Document remains visible only
in the cache. -/
theorem updateSyncMetadataS_warm (st : StorageState) (d : GTDData)
    (now : Nat) (hc : st.cache = some d) :
    updateSyncMetadataS st now =
      match st.writeFaults with
      | true :: rest =>
        (.thrown "Failed to save data to storage",
         { st with cache := some (stampDoc d now), writeFaults := rest })
      | false :: rest =>
        (.ok (), { cache := some (stampDoc d now),
                   stored := some (stampDoc d now), writeFaults := rest })
      | [] =>
        (.ok (), { cache := some (stampDoc d now),
                   stored := some (stampDoc d now), writeFaults := [] }) := by
  unfold updateSyncMetadataS
  simp only [getDataS, hc]
  unfold saveDataS
  cases hw : st.writeFaults with
  | nil => simp [stampDoc]
  | cons b rest => cases b <;> simp [stampDoc]

/-- C1: with a configured client, a warm cache and no transport or
storage faults, `sync()` behaves exactly as claimed: a missing remote
uploads the local Document verbatim, stamps `lastSync = now` (and the
hash) locally, and reports the initial-upload message; a remote with
strictly greater `lastSync` (missing compared as 0) replaces the local
Document wholesale, stamps, and reports the downloaded message;
otherwise the local Document is uploaded verbatim, stamped, and the
uploaded message reported. -/
theorem c1_sync (st : StorageState) (remote : Option GTDData) (now : Nat)
    (localData : GTDData) (hc : st.cache = some localData)
    (hsf : st.writeFaults = []) :
    (remote = none →
      sync st remote true noFaults now =
        { outcome := .ok ⟨true,
            "Initial sync completed. Local data uploaded to server."⟩,
          storage := { cache := some (stampDoc localData now),
                       stored := some (stampDoc localData now),
                       writeFaults := [] },
          remote := some localData }) ∧
    (∀ r, remote = some r → r.lastSync.getD 0 > localData.lastSync.getD 0 →
      sync st remote true noFaults now =
        { outcome := .ok ⟨true,
            "Sync completed. Downloaded updates from server."⟩,
          storage := { cache := some (stampDoc r now),
                       stored := some (stampDoc r now),
                       writeFaults := [] },
          remote := remote }) ∧
    (∀ r, remote = some r →
      ¬(r.lastSync.getD 0 > localData.lastSync.getD 0) →
      sync st remote true noFaults now =
        { outcome := .ok ⟨true,
            "Sync completed. Uploaded local changes to server."⟩,
          storage := { cache := some (stampDoc localData now),
                       stored := some (stampDoc localData now),
                       writeFaults := [] },
          remote := some localData }) := by
  refine ⟨?_, ?_, ?_⟩
  · intro hr
    subst hr
    have hmeta := updateSyncMetadataS_warm st localData now hc
    simp only [sync, getDataS, hc, downloadDataW, noFaults,
      Bool.not_true, Bool.false_eq_true, if_false, hmeta, hsf]
  · intro r hr hgt
    subst hr
    have hmeta := updateSyncMetadataS_warm
      { cache := some { r with version := STORAGE_VERSION },
        stored := some { r with version := STORAGE_VERSION },
        writeFaults := [] }
      { r with version := STORAGE_VERSION } now rfl
    simp only [sync, getDataS, hc, downloadDataW, noFaults,
      Bool.not_true, Bool.false_eq_true, if_false, hgt, if_true,
      saveDataS, hsf, hmeta, stampDoc_version]
  · intro r hr hle
    subst hr
    have hmeta := updateSyncMetadataS_warm st localData now hc
    simp only [sync, getDataS, hc, downloadDataW, noFaults,
      Bool.not_true, Bool.false_eq_true, if_false, hle, hmeta, hsf]

/-- C1, witness: initial upload against an empty remote from the concrete
warm state. -/
theorem c1_sync_witness :
    sync stBase none true noFaults 100 =
      { outcome := .ok ⟨true,
          "Initial sync completed. Local data uploaded to server."⟩,
        storage := { cache := some (stampDoc baseDoc 100),
                     stored := some (stampDoc baseDoc 100),
                     writeFaults := [] },
        remote := some baseDoc } :=
  (c1_sync stBase none 100 baseDoc rfl rfl).1 rfl

/-- C2, counterexample: first, `sync()` does throw when the client is not
initialized — the guard `if (!this.client) throw ...` sits before the
try/catch. Second, `success:false` does not guarantee untouched local
data: against a newer remote, when the backing medium accepts the
`saveData(remoteData)` write and then fails the metadata write,
`sync()` returns `{success: false}` with the local Document already
replaced wholesale (local tasks went from one task to the remote's empty
list). -/
theorem c2_counterexample :
    (sync { cache := none, stored := none } none false noFaults 0).outcome
      = .thrown "WebDAV client not initialized" ∧
    (sync stFaulty (some remoteNewerDoc) true noFaults 100).outcome =
      .ok ⟨false, syncFailMsg⟩ ∧
    baseDoc.tasks = [baseTask] ∧
    (sync stFaulty (some remoteNewerDoc) true noFaults 100).storage.cache.map
      (fun d => d.tasks) = some [] := by
  exact ⟨rfl, rfl, rfl, rfl⟩

/-- C2, amended: when the client is unconfigured, `sync()` throws (first
counterexample part). When configured (warm cache), `sync()` never
throws: every transport, parse, or storage-write failure inside the
algorithm is converted into a `{success: false, message}` result. Local
data is not guaranteed untouched on every `success:false` — a metadata
write failing after the remote Document was saved (or after the upload)
yields `success:false` with local data already changed (second
counterexample part) — but a remote Document is never *partially*
applied: after any call the local entity collections are exactly the
pre-call local ones or exactly the remote Document's, never a mix; and
when no storage-write failure is scheduled, every `success:false` result
leaves the storage state and the remote file exactly as they were. -/
theorem c2_sync_failure_safety (st : StorageState) (remote : Option GTDData)
    (f : TransportFaults) (now : Nat) (localData : GTDData)
    (hc : st.cache = some localData) :
    (∀ msg, (sync st remote true f now).outcome ≠ .thrown msg) ∧
    (∃ d, (sync st remote true f now).storage.cache = some d ∧
      ((d.tasks = localData.tasks ∧ d.projects = localData.projects ∧
        d.tags = localData.tags) ∨
       (∃ r, remote = some r ∧ d.tasks = r.tasks ∧
        d.projects = r.projects ∧ d.tags = r.tags))) ∧
    (st.writeFaults = [] →
      ∀ res, (sync st remote true f now).outcome = .ok res →
        res.success = false →
        (sync st remote true f now).storage = st ∧
        (sync st remote true f now).remote = remote) := by
  simp only [sync, getDataS, hc, Bool.not_true, Bool.false_eq_true,
    if_false]
  cases hdl : downloadDataW remote f with
  | thrown m =>
    exact ⟨fun msg h => JSOutcome.noConfusion h,
      ⟨localData, hc, Or.inl ⟨rfl, rfl, rfl⟩⟩,
      fun _ res _ _ => ⟨rfl, rfl⟩⟩
  | ok o =>
    cases o with
    | none =>
      cases hfp : f.putFails
      · rw [updateSyncMetadataS_warm st localData now hc]
        cases hw : st.writeFaults with
        | nil =>
          refine ⟨fun msg h => JSOutcome.noConfusion h,
            ⟨stampDoc localData now, rfl, Or.inl ⟨rfl, rfl, rfl⟩⟩,
            fun _ res hres hsucc => ?_⟩
          injection hres with h2
          rw [← h2] at hsucc
          exact Bool.noConfusion hsucc
        | cons b rest =>
          cases b
          · refine ⟨fun msg h => JSOutcome.noConfusion h,
              ⟨stampDoc localData now, rfl, Or.inl ⟨rfl, rfl, rfl⟩⟩,
              fun hempty => ?_⟩
            exact absurd hempty (by simp)
          · refine ⟨fun msg h => JSOutcome.noConfusion h,
              ⟨stampDoc localData now, rfl, Or.inl ⟨rfl, rfl, rfl⟩⟩,
              fun hempty => ?_⟩
            exact absurd hempty (by simp)
      · exact ⟨fun msg h => JSOutcome.noConfusion h,
          ⟨localData, hc, Or.inl ⟨rfl, rfl, rfl⟩⟩,
          fun _ res _ _ => ⟨rfl, rfl⟩⟩
    | some r =>
      have hrem : remote = some r := by
        unfold downloadDataW at hdl
        by_cases he : f.existsFails = true
        · simp [he] at hdl
        · simp only [if_neg he] at hdl
          cases remote with
          | none => simp at hdl
          | some d =>
            by_cases hg : f.getFails = true
            · simp [hg] at hdl
            · simp only [if_neg hg, JSOutcome.ok.injEq,
                Option.some.injEq] at hdl
              rw [hdl]
      simp only [gt_iff_lt]
      by_cases hcmp : localData.lastSync.getD 0 < r.lastSync.getD 0
      · rw [if_pos hcmp]
        unfold saveDataS
        cases hw : st.writeFaults with
        | nil =>
          have hmeta := updateSyncMetadataS_warm
            { cache := some { r with version := STORAGE_VERSION },
              stored := some { r with version := STORAGE_VERSION },
              writeFaults := [] }
            { r with version := STORAGE_VERSION } now rfl
          simp only [hmeta]
          refine ⟨fun msg h => JSOutcome.noConfusion h,
            ⟨stampDoc { r with version := STORAGE_VERSION } now, rfl,
             Or.inr ⟨r, hrem, rfl, rfl, rfl⟩⟩,
            fun _ res hres hsucc => ?_⟩
          injection hres with h2
          rw [← h2] at hsucc
          exact Bool.noConfusion hsucc
        | cons b rest =>
          cases b
          · have hmeta := updateSyncMetadataS_warm
              { cache := some { r with version := STORAGE_VERSION },
                stored := some { r with version := STORAGE_VERSION },
                writeFaults := rest }
              { r with version := STORAGE_VERSION } now rfl
            simp only [hmeta]
            cases rest with
            | nil =>
              refine ⟨fun msg h => JSOutcome.noConfusion h,
                ⟨stampDoc { r with version := STORAGE_VERSION } now, rfl,
                 Or.inr ⟨r, hrem, rfl, rfl, rfl⟩⟩,
                fun hempty => absurd hempty (by simp)⟩
            | cons b2 rest2 =>
              cases b2
              · refine ⟨fun msg h => JSOutcome.noConfusion h,
                  ⟨stampDoc { r with version := STORAGE_VERSION } now, rfl,
                   Or.inr ⟨r, hrem, rfl, rfl, rfl⟩⟩,
                  fun hempty => absurd hempty (by simp)⟩
              · refine ⟨fun msg h => JSOutcome.noConfusion h,
                  ⟨stampDoc { r with version := STORAGE_VERSION } now, rfl,
                   Or.inr ⟨r, hrem, rfl, rfl, rfl⟩⟩,
                  fun hempty => absurd hempty (by simp)⟩
          · refine ⟨fun msg h => JSOutcome.noConfusion h,
              ⟨localData, hc, Or.inl ⟨rfl, rfl, rfl⟩⟩,
              fun hempty => absurd hempty (by simp)⟩
      · rw [if_neg hcmp]
        cases hfp : f.putFails
        · rw [updateSyncMetadataS_warm st localData now hc]
          cases hw : st.writeFaults with
          | nil =>
            refine ⟨fun msg h => JSOutcome.noConfusion h,
              ⟨stampDoc localData now, rfl, Or.inl ⟨rfl, rfl, rfl⟩⟩,
              fun _ res hres hsucc => ?_⟩
            injection hres with h2
            rw [← h2] at hsucc
            exact Bool.noConfusion hsucc
          | cons b rest =>
            cases b
            · refine ⟨fun msg h => JSOutcome.noConfusion h,
                ⟨stampDoc localData now, rfl, Or.inl ⟨rfl, rfl, rfl⟩⟩,
                fun hempty => absurd hempty (by simp)⟩
            · refine ⟨fun msg h => JSOutcome.noConfusion h,
                ⟨stampDoc localData now, rfl, Or.inl ⟨rfl, rfl, rfl⟩⟩,
                fun hempty => absurd hempty (by simp)⟩
        · exact ⟨fun msg h => JSOutcome.noConfusion h,
            ⟨localData, hc, Or.inl ⟨rfl, rfl, rfl⟩⟩,
            fun _ res _ _ => ⟨rfl, rfl⟩⟩

/-- C2, witness: a download failure against the concrete warm state (no
storage fault scheduled) leaves storage and remote untouched. -/
theorem c2_sync_failure_safety_witness :
    (sync stBase (some baseDoc) true { getFails := true } 0).storage =
      stBase ∧
    (sync stBase (some baseDoc) true { getFails := true } 0).remote =
      some baseDoc :=
  (c2_sync_failure_safety stBase (some baseDoc) { getFails := true } 0
    baseDoc rfl).2.2 rfl ⟨false, syncFailMsg⟩ rfl rfl

/-- C9, counterexample: starting unconfigured, a `configure` whose probe
fails leaves the engine reporting configured — `this.client` and
`this.config` are assigned before the probe — and `currentConfig()`
returns the new normalized URL instead of what it returned before the
call, refuting the claim. -/
theorem c9_counterexample :
    isConfiguredW wdUnconfigured = false ∧
    getConfigW wdUnconfigured = none ∧
    (initializeW wdUnconfigured "https://cloud.example.com" "u" "p" true).1
      = .thrown
        "Failed to connect to WebDAV server. Please check your credentials." ∧
    isConfiguredW
      (initializeW wdUnconfigured "https://cloud.example.com" "u" "p"
        true).2 = true ∧
    getConfigW
      (initializeW wdUnconfigured "https://cloud.example.com" "u" "p"
        true).2 =
      some ("https://cloud.example.com/remote.php/dav/files/u", "u") := by
  exact ⟨rfl, rfl, rfl, rfl, rfl⟩

/-- C9, amended: `configure` performs its probe before persisting: on
probe failure it throws the connection error and the persisted credential
store is untouched; but the in-memory client and config have already been
assigned, so afterwards `isConfigured()` reports true and
`currentConfig()` returns the new (normalized) url and username rather
than its pre-call value. -/
theorem c9_configure (st : WebDAVState) (url username password : String) :
    (initializeW st url username password true).1 =
      .thrown
        "Failed to connect to WebDAV server. Please check your credentials." ∧
    (initializeW st url username password true).2.storedConfig =
      st.storedConfig ∧
    (initializeW st url username password true).2.config =
      some { url := normalizeWebdavUrl url username, username := username,
             password := password } ∧
    isConfiguredW (initializeW st url username password true).2 = true ∧
    getConfigW (initializeW st url username password true).2 =
      some (normalizeWebdavUrl url username, username) := by
  exact ⟨rfl, rfl, rfl, rfl, rfl⟩

/-- The indexed weekday search only returns indexes below the list
length (shifted by the start index). -/
theorem findKwIdxFrom_lt : ∀ (kws : List (List Char)) (k : Nat)
    (s : List Char) (i : Nat),
    findKwIdxFrom k kws s = some i → i < k + kws.length := by
  intro kws
  induction kws with
  | nil =>
    intro k s i h
    simp [findKwIdxFrom] at h
  | cons kw rest ih =>
    intro k s i h
    unfold findKwIdxFrom at h
    by_cases hk : hasKw [kw] s = true
    · rw [if_pos hk] at h
      have hki : k = i := Option.some.inj h
      simp only [List.length_cons]
      omega
    · rw [if_neg hk] at h
      have := ih (k + 1) s i h
      simp only [List.length_cons]
      omega

/-- `getNextWeekday` lands on the end of a strictly future day, at most a
week ahead, whose weekday is the requested one. -/
theorem getNextWeekday_bounds (i today : Nat) (hi : i < 7) :
    ∃ d, getNextWeekday i today = endOfDay d ∧ today < d ∧ d ≤ today + 7 ∧
      d % 7 = i % 7 := by
  by_cases hle : (i : Int) - ((today % 7 : Nat) : Int) ≤ 0
  · refine ⟨today + ((i : Int) - ((today % 7 : Nat) : Int) + 7).toNat,
      ?_, ?_, ?_, ?_⟩
    · simp only [getNextWeekday, if_pos hle]
    · omega
    · omega
    · omega
  · refine ⟨today + ((i : Int) - ((today % 7 : Nat) : Int)).toNat,
      ?_, ?_, ?_, ?_⟩
    · simp only [getNextWeekday, if_neg hle]
    · omega
    · omega
    · omega

/-- The finalize phase never changes the detected date. -/
theorem parseFinalize_detectedDate (title : String)
    (st : List Char × Option Nat) :
    (parseFinalize title st).detectedDate = st.2 := by
  simp only [parseFinalize]
  split <;> rfl

/-- The finalize phase never yields an empty title from a non-blank
input. -/
theorem parseFinalize_ne_empty (title : String)
    (st : List Char × Option Nat) (hne : jsTrim title ≠ "") :
    (parseFinalize title st).cleanedTitle ≠ "" := by
  simp only [parseFinalize]
  split
  · exact hne
  · rename_i h
    intro hmk
    exact h ⟨congrArg String.data hmk, hne⟩

/-- C8, counterexample: on the input " tomorrow " (surrounding spaces),
stripping the keyword leaves an empty title and the code returns the
*trimmed* original "tomorrow", not the original untouched title
" tomorrow " the claim promises. -/
theorem c8_counterexample :
    (parseTaskTitle " tomorrow " 3).cleanedTitle = "tomorrow" ∧
    (parseTaskTitle " tomorrow " 3).cleanedTitle ≠ " tomorrow " ∧
    (parseTaskTitle " tomorrow " 3).detectedDate = some (endOfDay 4) := by
  exact ⟨by decide, by decide, by decide⟩

/-- C8, amended: `parse` applies the keyword precedence today/heute over
tomorrow/morgen over weekday names (German list before English, first
index winning); a weekday match resolves to the end of a strictly future
day at most a week ahead with the requested weekday (a same-day match
rolls forward, never resolving to today); in every branch — today/heute,
tomorrow/morgen, German weekday, English weekday — the matched keyword
list is removed from the title with whitespace normalized; and if
stripping the keyword would leave an empty title, the *trimmed* original
title is returned instead of an empty one (trimmed, not untouched, per
the counterexample). -/
theorem c8_parseTaskTitle (title : String) (today : Nat) :
    (hasKw [kwHeute, kwToday] (title.data.map Char.toLower) = true →
      (parseTaskTitle title today).detectedDate = some (endOfDay today)) ∧
    (hasKw [kwHeute, kwToday] (title.data.map Char.toLower) = false →
      hasKw [kwMorgen, kwTomorrow] (title.data.map Char.toLower) = true →
      (parseTaskTitle title today).detectedDate =
        some (endOfDay (today + 1))) ∧
    (∀ i, hasKw [kwHeute, kwToday] (title.data.map Char.toLower) = false →
      hasKw [kwMorgen, kwTomorrow] (title.data.map Char.toLower) = false →
      (findKwIdx WEEKDAYS_DE (title.data.map Char.toLower) = some i ∨
        (findKwIdx WEEKDAYS_DE (title.data.map Char.toLower) = none ∧
         findKwIdx WEEKDAYS_EN (title.data.map Char.toLower) = some i)) →
      ∃ d, (parseTaskTitle title today).detectedDate = some (endOfDay d) ∧
        today < d ∧ d ≤ today + 7 ∧ d % 7 = i % 7) ∧
    (hasKw [kwHeute, kwToday] (title.data.map Char.toLower) = true →
      (parseTaskTitle title today).cleanedTitle =
        (if normalizeWs (removeKws [kwHeute, kwToday] title.data) = [] ∧
            jsTrim title ≠ "" then jsTrim title
         else String.mk
           (normalizeWs (removeKws [kwHeute, kwToday] title.data)))) ∧
    (hasKw [kwHeute, kwToday] (title.data.map Char.toLower) = false →
      hasKw [kwMorgen, kwTomorrow] (title.data.map Char.toLower) = true →
      (parseTaskTitle title today).cleanedTitle =
        (if normalizeWs (removeKws [kwMorgen, kwTomorrow] title.data)
              = [] ∧ jsTrim title ≠ "" then jsTrim title
         else String.mk
           (normalizeWs (removeKws [kwMorgen, kwTomorrow] title.data)))) ∧
    (∀ i, hasKw [kwHeute, kwToday] (title.data.map Char.toLower) = false →
      hasKw [kwMorgen, kwTomorrow] (title.data.map Char.toLower) = false →
      findKwIdx WEEKDAYS_DE (title.data.map Char.toLower) = some i →
      (parseTaskTitle title today).cleanedTitle =
        (if normalizeWs (removeKws [WEEKDAYS_DE.getD i []] title.data)
              = [] ∧ jsTrim title ≠ "" then jsTrim title
         else String.mk
           (normalizeWs
             (removeKws [WEEKDAYS_DE.getD i []] title.data)))) ∧
    (∀ i, hasKw [kwHeute, kwToday] (title.data.map Char.toLower) = false →
      hasKw [kwMorgen, kwTomorrow] (title.data.map Char.toLower) = false →
      findKwIdx WEEKDAYS_DE (title.data.map Char.toLower) = none →
      findKwIdx WEEKDAYS_EN (title.data.map Char.toLower) = some i →
      (parseTaskTitle title today).cleanedTitle =
        (if normalizeWs (removeKws [WEEKDAYS_EN.getD i []] title.data)
              = [] ∧ jsTrim title ≠ "" then jsTrim title
         else String.mk
           (normalizeWs
             (removeKws [WEEKDAYS_EN.getD i []] title.data)))) ∧
    (jsTrim title ≠ "" → (parseTaskTitle title today).cleanedTitle ≠ "") := by
  refine ⟨?_, ?_, ?_, ?_, ?_, ?_, ?_, ?_⟩
  · intro h1
    unfold parseTaskTitle
    rw [parseFinalize_detectedDate]
    simp [parseStep, h1]
  · intro h1 h2
    unfold parseTaskTitle
    rw [parseFinalize_detectedDate]
    simp [parseStep, h1, h2]
  · intro i h1 h2 hcase
    rcases hcase with hDE | ⟨hDEn, hEN⟩
    · have hi : i < 7 := by
        have := findKwIdxFrom_lt WEEKDAYS_DE 0 (title.data.map Char.toLower)
          i hDE
        simpa [WEEKDAYS_DE] using this
      obtain ⟨d, hd, hb1, hb2, hb3⟩ := getNextWeekday_bounds i today hi
      refine ⟨d, ?_, hb1, hb2, hb3⟩
      unfold parseTaskTitle
      rw [parseFinalize_detectedDate]
      simp [parseStep, h1, h2, hDE, hd]
    · have hi : i < 7 := by
        have := findKwIdxFrom_lt WEEKDAYS_EN 0 (title.data.map Char.toLower)
          i hEN
        simpa [WEEKDAYS_EN] using this
      obtain ⟨d, hd, hb1, hb2, hb3⟩ := getNextWeekday_bounds i today hi
      refine ⟨d, ?_, hb1, hb2, hb3⟩
      unfold parseTaskTitle
      rw [parseFinalize_detectedDate]
      simp [parseStep, h1, h2, hDEn, hEN, hd]
  · intro h1
    unfold parseTaskTitle
    have hstep : parseStep title today =
        (removeKws [kwHeute, kwToday] title.data, some (endOfDay today)) := by
      simp [parseStep, h1]
    rw [hstep]
    by_cases hcond : normalizeWs (removeKws [kwHeute, kwToday] title.data)
        = [] ∧ jsTrim title ≠ ""
    · simp only [parseFinalize, if_pos hcond]
    · simp only [parseFinalize, if_neg hcond]
  · intro h1 h2
    unfold parseTaskTitle
    have hstep : parseStep title today =
        (removeKws [kwMorgen, kwTomorrow] title.data,
         some (endOfDay (today + 1))) := by
      simp [parseStep, h1, h2]
    rw [hstep]
    by_cases hcond : normalizeWs (removeKws [kwMorgen, kwTomorrow]
        title.data) = [] ∧ jsTrim title ≠ ""
    · simp only [parseFinalize, if_pos hcond]
    · simp only [parseFinalize, if_neg hcond]
  · intro i h1 h2 hDE
    unfold parseTaskTitle
    have hstep : parseStep title today =
        (removeKws [WEEKDAYS_DE.getD i []] title.data,
         some (getNextWeekday i today)) := by
      simp [parseStep, h1, h2, hDE]
    rw [hstep]
    by_cases hcond : normalizeWs
        (removeKws [WEEKDAYS_DE.getD i []] title.data) = [] ∧
        jsTrim title ≠ ""
    · simp only [parseFinalize, if_pos hcond]
    · simp only [parseFinalize, if_neg hcond]
  · intro i h1 h2 hDEn hEN
    unfold parseTaskTitle
    have hstep : parseStep title today =
        (removeKws [WEEKDAYS_EN.getD i []] title.data,
         some (getNextWeekday i today)) := by
      simp [parseStep, h1, h2, hDEn, hEN]
    rw [hstep]
    by_cases hcond : normalizeWs
        (removeKws [WEEKDAYS_EN.getD i []] title.data) = [] ∧
        jsTrim title ≠ ""
    · simp only [parseFinalize, if_pos hcond]
    · simp only [parseFinalize, if_neg hcond]
  · intro hne
    exact parseFinalize_ne_empty title (parseStep title today) hne

/-- C8, witness: "Buy milk tomorrow " at a Thursday (day 3) detects
tomorrow's end of day and strips the keyword. -/
theorem c8_parseTaskTitle_witness :
    (parseTaskTitle "Buy milk tomorrow " 3).detectedDate =
      some (endOfDay 4) ∧
    (parseTaskTitle "Buy milk tomorrow " 3).cleanedTitle = "Buy milk" :=
  ⟨(c8_parseTaskTitle "Buy milk tomorrow " 3).2.1 (by decide) (by decide),
   by decide⟩

end Taskflow